import Mathlib

/-!
Verification development for the MADORO CODE repository (src/tools.py,
src/llm.py, src/memory.py, src/agent.py, src/context.py).

The Python code is shallowly embedded: the filesystem is a finite map from
resolved absolute paths (component lists) to text contents, `datetime.now`
is a logical clock, `md5` is an abstract hash parameter, and subprocess
calls (ripgrep, git, pytest) are oracle parameters giving their outcome.
JSON numbers are modelled as integers (the inputs of interest use only
small integers).  All definitions below follow the corresponding Python
functions line by line; deviations are noted in doc comments.
-/

namespace Madoro

/-- JSON values, the model of Python dict/list/str/int/bool/None data that
flows through json.loads / json.dumps and the tool argument dictionaries.
Numbers are modelled as integers. -/
inductive Jval where
  | null : Jval
  | bool (b : Bool) : Jval
  | num (n : Int) : Jval
  | str (s : String) : Jval
  | arr (xs : List Jval) : Jval
  | obj (kvs : List (String × Jval)) : Jval
deriving Repr, Inhabited

/-- Python truthiness of a JSON-like value (used by the many `if x:` tests
in the source). -/
def jTruthy : Jval → Bool
  | .null => false
  | .bool b => b
  | .num n => n != 0
  | .str s => !(s == "")
  | .arr xs => !xs.isEmpty
  | .obj kvs => !kvs.isEmpty

/-- Dictionary lookup, Python d.get(k). -/
def jGet (kvs : List (String × Jval)) (k : String) : Option Jval :=
  (kvs.find? (fun e => e.1 == k)).map (fun e => e.2)

/-- Python d.get(k, default). -/
def jGetD (kvs : List (String × Jval)) (k : String) (d : Jval) : Jval :=
  (jGet kvs k).getD d

/-- Python "k" in d (membership in a dict object). -/
def jHasKey (kvs : List (String × Jval)) (k : String) : Bool :=
  (jGet kvs k).isSome

/-- Lookup on an arbitrary value: returns the entries when it is an object. -/
def jObjEntries : Jval → List (String × Jval)
  | .obj kvs => kvs
  | _ => []

/-- Python d.get(k, "") where a string result is expected;
non-string values collapse to "". -/
def jGetStr (v : Jval) (k : String) : String :=
  match v with
  | .obj kvs =>
    match jGet kvs k with
    | some (.str s) => s
    | _ => ""
  | _ => ""

mutual

/-- Render a JSON value back to text (model of json.dumps; object keys keep
their stored order, as Python dicts preserve insertion order). -/
def jDump : Jval → String
  | .null => "null"
  | .bool true => "true"
  | .bool false => "false"
  | .num n => toString n
  | .str s => "\"" ++ s ++ "\""
  | .arr xs => "[" ++ String.intercalate ", " (jDumpList xs) ++ "]"
  | .obj kvs =>
      "\x7b" ++ String.intercalate ", " (jDumpEntries kvs) ++ "\x7d"

/-- Renders each array element. -/
def jDumpList : List Jval → List String
  | [] => []
  | x :: xs => jDump x :: jDumpList xs

/-- Renders each object entry as "key": value. -/
def jDumpEntries : List (String × Jval) → List String
  | [] => []
  | e :: es => ("\"" ++ e.1 ++ "\": " ++ jDump e.2) :: jDumpEntries es

end

/-! ### Character-list utilities (substring search, as used by Python
`in`, re.search on literal-delimited patterns, and str.strip) -/

/-- First occurrence split: returns (text before the needle, text after the
needle), or none when the needle does not occur.  Models the scan that
`str.find` / `re.search` perform for literal patterns. -/
def splitSub (needle : List Char) : List Char → Option (List Char × List Char)
  | [] => if needle.isEmpty then some ([], []) else none
  | c :: rest =>
    if needle.isPrefixOf (c :: rest) then
      some ([], (c :: rest).drop needle.length)
    else
      match splitSub needle rest with
      | some (a, b) => some (c :: a, b)
      | none => none

/-- Substring containment on character lists (Python `needle in hay`). -/
def containsSub (needle hay : List Char) : Bool :=
  (splitSub needle hay).isSome

/-- Substring containment on strings (Python `needle in hay`). -/
def strContains (needle hay : String) : Bool :=
  containsSub needle.data hay.data

/-- Python str.strip() on a character list. -/
def trimChars (cs : List Char) : List Char :=
  ((cs.dropWhile Char.isWhitespace).reverse.dropWhile Char.isWhitespace).reverse

/-- Python str.rstrip(). -/
def rstripStr (s : String) : String :=
  ⟨(s.data.reverse.dropWhile Char.isWhitespace).reverse⟩

/-- str.startswith (character-list implementation of String.startsWith,
which the kernel cannot evaluate). -/
def strStartsWith (s pre : String) : Bool := pre.data.isPrefixOf s.data

/-- str.endswith. -/
def strEndsWith (s suf : String) : Bool := suf.data.isSuffixOf s.data

/-- str.lower(). -/
def strToLower (s : String) : String := ⟨s.data.map Char.toLower⟩

/-- str.split(sep) on character lists (sep assumed non-empty), driven by
the first-occurrence scan. -/
def splitOnList (sep : List Char) : Nat → List Char → List (List Char)
  | 0, cs => [cs]
  | fuel + 1, cs =>
    match splitSub sep cs with
    | none => [cs]
    | some (a, b) => a :: splitOnList sep fuel b

/-- str.split(sep) on strings. -/
def strSplitOn (s sep : String) : List String :=
  if sep == "" then [s]
  else (splitOnList sep.data (s.data.length + 1) s.data).map (fun l => ⟨l⟩)

/-- str.split() with a character predicate: cut at every matching
character (the model of String.split). -/
def splitPredGo (p : Char → Bool) : List Char → List Char → List (List Char)
  | [], acc => [acc.reverse]
  | c :: rest, acc =>
    if p c then acc.reverse :: splitPredGo p rest []
    else splitPredGo p rest (c :: acc)

/-- str.split() on whitespace-like predicates, as a string list. -/
def strSplitPred (p : Char → Bool) (s : String) : List String :=
  (splitPredGo p s.data []).map (fun l => ⟨l⟩)

/-! ### Path model (pathlib.Path on POSIX)

A path string is parsed into components; "." and empty components vanish
(as in PurePath.parts) while ".." is kept.  `resolveComps` models
Path.resolve / the kernel's path resolution: ".." pops one component
(clamping at the root).  An absolute location is a component list relative
to "/". -/

/-- PurePath parts of a path string (without the anchor): splits on "/",
dropping empty and "." segments, keeping "..". -/
def pathComps (p : String) : List String :=
  (strSplitOn p "/").filter (fun s => !(s == "") && !(s == "."))

/-- Python Path(p).is_absolute() on POSIX. -/
def isAbsPath (p : String) : Bool := strStartsWith p "/"

/-- Python root / p: an absolute right operand replaces the root. `root` is
the already-resolved project root. -/
def joinTo (root : List String) (p : String) : List String :=
  if isAbsPath p then pathComps p else root ++ pathComps p

/-- Resolution of ".." segments (Path.resolve without symlinks; ".." above
"/" clamps, as the OS does). -/
def resolveComps (l : List String) : List String :=
  l.foldl (fun acc c => if c == ".." then acc.dropLast else acc ++ [c]) []

/-- Python resolved.relative_to(root) succeeds exactly when root is a
prefix of the resolved path. -/
def isWithin (root q : List String) : Bool :=
  root.isPrefixOf q

/-- Python str(Path) for an absolute component list. -/
def renderAbs (c : List String) : String :=
  "/" ++ String.intercalate "/" c

/-- Python PurePath(p).name: the last part, or "" when there is none. -/
def pathName (p : String) : String :=
  ((pathComps p).getLast?).getD ""

/-! ### Filesystem model: finite map from resolved absolute component
paths to file contents (text files only). -/

/-- The filesystem: association list of (resolved absolute path, content). -/
abbrev Fs := List (List String × String)

/-- Content of the file at a resolved path, if it is a file. -/
def fsGet (fs : Fs) (p : List String) : Option String :=
  (fs.find? (fun e => e.1 == p)).map (fun e => e.2)

/-- Python path.exists() for a file. -/
def fileExists (fs : Fs) (p : List String) : Bool :=
  (fsGet fs p).isSome

/-- A directory exists when some file lies strictly below it. -/
def dirExists (fs : Fs) (d : List String) : Bool :=
  fs.any (fun e => d.isPrefixOf e.1 && decide (d.length < e.1.length))

/-- Python write_text (with mkdir(parents=True): directories are implicit
in this model). -/
def fsSet (fs : Fs) (p : List String) (c : String) : Fs :=
  (p, c) :: fs.filter (fun e => !(e.1 == p))

/-- Immediate child names of a directory: for each file strictly below d,
the component just after d (deduplicated, first occurrence order) —
the model of Path.iterdir() entry names. -/
def childNames (fs : Fs) (d : List String) : List String :=
  ((fs.filterMap (fun e =>
      if d.isPrefixOf e.1 && decide (d.length < e.1.length) then
        e.1.get? d.length
      else none)).eraseDups)

/-! ### JSON parser (model of json.loads)

Recursive-descent parser with an explicit fuel argument; fuel is set
beyond the input length, so it never runs out on real inputs.  Floating
point numbers are not modelled: a fractional or exponent part makes the
parse fail (the inputs relevant to the claims are integers). -/

/-- JSON whitespace (the exact set json.loads skips). -/
def jsonWsChar (c : Char) : Bool :=
  c == ' ' || c == '\t' || c == '\n' || c == '\r'

/-- Skip JSON whitespace. -/
def skipJsonWs (cs : List Char) : List Char := cs.dropWhile jsonWsChar

/-- Hexadecimal digit value. -/
def hexVal (c : Char) : Option Nat :=
  if c.isDigit then some (c.toNat - 48)
  else if 'a' ≤ c && c ≤ 'f' then some (c.toNat - 87)
  else if 'A' ≤ c && c ≤ 'F' then some (c.toNat - 55)
  else none

/-- Decimal digits to a number. -/
def digitsToNat (ds : List Char) : Nat :=
  ds.foldl (fun a c => a * 10 + (c.toNat - 48)) 0

/-- Parse a JSON string body (after the opening quote), handling the
escape sequences json.loads accepts. -/
def parseJStr : Nat → List Char → Option (List Char × List Char)
  | 0, _ => none
  | _, [] => none
  | fuel + 1, c :: rest =>
    if c == '"' then some ([], rest)
    else if c == '\\' then
      match rest with
      | [] => none
      | e :: rest2 =>
        if e == 'u' then
          match rest2 with
          | a :: b :: c3 :: d :: rest3 =>
            match hexVal a, hexVal b, hexVal c3, hexVal d with
            | some x1, some x2, some x3, some x4 =>
              (parseJStr fuel rest3).map (fun r =>
                (Char.ofNat (((x1 * 16 + x2) * 16 + x3) * 16 + x4) :: r.1, r.2))
            | _, _, _, _ => none
          | _ => none
        else
          let esc : Option Char :=
            if e == '"' then some '"'
            else if e == '\\' then some '\\'
            else if e == '/' then some '/'
            else if e == 'n' then some '\n'
            else if e == 't' then some '\t'
            else if e == 'r' then some '\r'
            else if e == 'b' then some (Char.ofNat 8)
            else if e == 'f' then some (Char.ofNat 12)
            else none
          match esc with
          | some ch => (parseJStr fuel rest2).map (fun r => (ch :: r.1, r.2))
          | none => none
    else
      (parseJStr fuel rest).map (fun r => (c :: r.1, r.2))

mutual

/-- Parse one JSON value, returning it and the remaining input. -/
def parseJVal : Nat → List Char → Option (Jval × List Char)
  | 0, _ => none
  | fuel + 1, cs =>
    match skipJsonWs cs with
    | [] => none
    | c :: rest =>
      if c == '"' then
        (parseJStr fuel rest).map (fun r => (Jval.str ⟨r.1⟩, r.2))
      else if c == '[' then
        parseJArr fuel rest
      else if c == '\x7b' then
        parseJObj fuel rest
      else if c == '-' then
        let ds := rest.takeWhile Char.isDigit
        if ds.isEmpty then none
        else some (Jval.num (-(digitsToNat ds : Int)), rest.drop ds.length)
      else if c.isDigit then
        let ds := (c :: rest).takeWhile Char.isDigit
        some (Jval.num (digitsToNat ds : Int), (c :: rest).drop ds.length)
      else if ['t', 'r', 'u', 'e'].isPrefixOf (c :: rest) then
        some (Jval.bool true, (c :: rest).drop 4)
      else if ['f', 'a', 'l', 's', 'e'].isPrefixOf (c :: rest) then
        some (Jval.bool false, (c :: rest).drop 5)
      else if ['n', 'u', 'l', 'l'].isPrefixOf (c :: rest) then
        some (Jval.null, (c :: rest).drop 4)
      else none

/-- Parse array elements (after the opening bracket). -/
def parseJArr : Nat → List Char → Option (Jval × List Char)
  | 0, _ => none
  | fuel + 1, cs =>
    match skipJsonWs cs with
    | [] => none
    | c :: rest =>
      if c == ']' then some (Jval.arr [], rest)
      else
        match parseJVal fuel cs with
        | none => none
        | some (v, after) => parseJArrTail fuel [v] after

/-- Parse the rest of an array after at least one element. -/
def parseJArrTail : Nat → List Jval → List Char → Option (Jval × List Char)
  | 0, _, _ => none
  | fuel + 1, acc, cs =>
    match skipJsonWs cs with
    | [] => none
    | c :: rest =>
      if c == ']' then some (Jval.arr acc.reverse, rest)
      else if c == ',' then
        match parseJVal fuel rest with
        | none => none
        | some (v, after) => parseJArrTail fuel (v :: acc) after
      else none

/-- Parse object entries (after the opening brace). -/
def parseJObj : Nat → List Char → Option (Jval × List Char)
  | 0, _ => none
  | fuel + 1, cs =>
    match skipJsonWs cs with
    | [] => none
    | c :: rest =>
      if c == '\x7d' then some (Jval.obj [], rest)
      else parseJObjTail fuel [] cs

/-- Parse the remaining key/value pairs of an object. -/
def parseJObjTail : Nat → List (String × Jval) → List Char →
    Option (Jval × List Char)
  | 0, _, _ => none
  | fuel + 1, acc, cs =>
    match skipJsonWs cs with
    | [] => none
    | c :: rest =>
      if c == '"' then
        match parseJStr fuel rest with
        | none => none
        | some (k, afterKey) =>
          match skipJsonWs afterKey with
          | ':' :: afterColon =>
            match parseJVal fuel afterColon with
            | none => none
            | some (v, afterVal) =>
              match skipJsonWs afterVal with
              | '\x7d' :: rest2 =>
                some (Jval.obj (acc.reverse ++ [(⟨k⟩, v)]), rest2)
              | ',' :: rest2 => parseJObjTail fuel ((⟨k⟩, v) :: acc) rest2
              | _ => none
          | _ => none
      else none

end

/-- Parse a whole JSON document from characters (json.loads: trailing
whitespace is allowed, trailing junk is an error). -/
def parseJsonChars (cs : List Char) : Option Jval :=
  match parseJVal (cs.length + 2) cs with
  | some (v, rest) => if (skipJsonWs rest).isEmpty then some v else none
  | none => none

/-- Parse a whole JSON document from a string. -/
def parseJson (s : String) : Option Jval := parseJsonChars s.data

/-! ### Python slice semantics (negative indices clamp) -/

/-- Effective index of a Python slice bound. -/
def pyIdx (n : Nat) (i : Int) : Nat :=
  if i < 0 then (n + i).toNat else min i.toNat n

/-- Python l[a:b]. -/
def pySlice {α : Type} (l : List α) (a b : Int) : List α :=
  (l.take (pyIdx l.length b)).drop (pyIdx l.length a)

/-- Python l[a:]. -/
def pySliceFrom {α : Type} (l : List α) (a : Int) : List α :=
  l.drop (pyIdx l.length a)

/-! ### memory.py — MemoryStore

The sqlite tables are modelled as in-memory lists; `datetime.now()` is a
strictly increasing logical clock, also reused as the autoincrement row
id (both increase together in the source, and rows are only ever ordered
by timestamp). -/

/-- A conversation_turns row (id doubles as the timestamp). -/
structure TurnRow where
  id : Nat
  role : String
  content : String
deriving Repr, DecidableEq

/-- A work_logs row. -/
structure LogEntry where
  ts : Nat
  action : String
  target : String
  description : String
  result : String
  details : String
deriving Repr, DecidableEq

/-- An issues row restricted to the fields the context builder reads. -/
structure IssueRow where
  severity : String
  title : String
deriving Repr, DecidableEq

/-- A file_index row. -/
structure FileIdxRow where
  path : String
  size : Nat
  contentHash : String
deriving Repr, DecidableEq

/-- MemoryStore state: max_turns plus the table contents.  workLogs is
kept newest first. -/
structure MemoryStore where
  maxTurns : Nat
  turns : List TurnRow
  issues : List IssueRow
  workLogs : List LogEntry
  fileIndex : List FileIdxRow
  clock : Nat
deriving Repr

/-- MemoryStore.__init__: `max_turns or DEFAULT_MAX_TURNS` — note that a
configured value of 0 is falsy in Python and becomes the default 50. -/
def MemoryStore.init (maxTurns : Option Nat) : MemoryStore :=
  let mt := match maxTurns with
    | some m => if m == 0 then 50 else m
    | none => 50
  ⟨mt, [], [], [], [], 0⟩

/-- MemoryStore.set_max_turns. -/
def MemoryStore.setMaxTurns (m : MemoryStore) (n : Nat) : MemoryStore :=
  { m with maxTurns := n }

/-- MemoryStore.log_work: INSERT into work_logs. -/
def MemoryStore.logWork (m : MemoryStore)
    (action target description result details : String) : MemoryStore :=
  { m with
    workLogs := ⟨m.clock, action, target, description, result, details⟩ :: m.workLogs,
    clock := m.clock + 1 }

/-- MemoryStore.add_turn: INSERT the new turn, then DELETE every row whose
id is not among the max_turns most recent by timestamp.  Timestamps are
strictly increasing here, so ORDER BY timestamp DESC is list reversal. -/
def MemoryStore.addTurn (m : MemoryStore) (role content : String) : MemoryStore :=
  let rows := m.turns ++ [⟨m.clock, role, content⟩]
  let keep := (rows.reverse.take m.maxTurns).map (fun r => r.id)
  { m with turns := rows.filter (fun r => keep.contains r.id), clock := m.clock + 1 }

/-- MemoryStore.get_recent_turns: SELECT ... ORDER BY timestamp DESC
LIMIT ?, then reversed in Python to oldest-first. -/
def MemoryStore.getRecentTurns (m : MemoryStore) (limit : Nat) : List TurnRow :=
  (m.turns.reverse.take limit).reverse

/-- MemoryStore.get_open_issues (the stored rows are the OPEN ones, in
the order the query returns them). -/
def MemoryStore.getOpenIssues (m : MemoryStore) : List IssueRow := m.issues

/-- MemoryStore.update_file_index: INSERT OR REPLACE keyed by path. -/
def MemoryStore.updateFileIndex (m : MemoryStore)
    (path : String) (size : Nat) (h : String) : MemoryStore :=
  { m with fileIndex := ⟨path, size, h⟩ :: m.fileIndex.filter (fun r => !(r.path == path)) }

/-- Rendering of datetime.now() used by update_ssot (models strftime). -/
def tsRender (n : Nat) : String := "t" ++ toString n

/-! ### tools.py — ToolExecutor -/

/-- SSOT files that require user approval before modification. -/
def SSOT_FILES : List String :=
  ["HANDOVER.md", "CONSTITUTION.md", "ARCHITECTURE.md", "CHECKLIST.md", "DECISIONS.md"]

/-- Tool execution result (dataclass ToolResult). -/
structure ToolResult where
  success : Bool
  output : String
  error : Option String := none
  data : Option Jval := none
deriving Repr

/-- A pending_ssot_changes entry. -/
structure Pending where
  path : String
  fullPath : String
  fileName : String
  oldContent : String
  newContent : Jval
deriving Repr

/-- ToolExecutor state: the filesystem, the shared memory store, and the
queue of pending SSOT changes. -/
structure ExecSt where
  fs : Fs
  mem : MemoryStore
  pending : List Pending
deriving Repr

/-- The ssot_approval_callback: (file_name, file_path, old_content,
new_content) -> approved. -/
abbrev SsotCb := String → String → String → Jval → Bool

/-- ToolExecutor._is_ssot_file. -/
def isSsotFile (path : String) : Bool := SSOT_FILES.contains (pathName path)

/-- The sensitive location patterns of _validate_project_scope. -/
def sensitivePatterns : List String :=
  ["/etc/", "/usr/", "/bin/", "/sbin/",
   "C:\\Windows", "C:\\Program Files",
   ".git/config", ".git/hooks",
   ".env", ".credentials", "secrets"]

/-- ToolExecutor._validate_project_scope: resolve the path, require it to
be under the project root, reject ".." substrings (the source tests plain
substring containment), absolute paths, and sensitive locations.  The
error texts follow the source minus quoting. -/
def validateProjectScope (root : List String) (p : String) : Bool × String :=
  let resolved := resolveComps (joinTo root p)
  if !(isWithin root resolved) then
    (false, "Path " ++ p ++ " is outside project root")
  else if strContains ".." p then
    (false, "Path traversal detected in " ++ p)
  else if isAbsPath p then
    (false, "Absolute paths not allowed: " ++ p)
  else if sensitivePatterns.any
      (fun pat => strContains (strToLower pat) (strToLower (renderAbs resolved))) then
    (false, "Cannot write to sensitive location: " ++ p)
  else
    (true, "")

/-- Python path.exists(): true for files and directories. -/
def pathExists (fs : Fs) (p : List String) : Bool :=
  fileExists fs p || dirExists fs p

/-- The existence probe of _read_file: the target itself when it exists,
else the case-insensitively matching entry of the parent directory; this
scan runs before _validate_project_scope.  iterdir on a parent that is a
file raises. -/
def readFileProbe (fs : Fs) (fullT : List String) :
    Except String (Option (List String)) :=
  let fullR := resolveComps fullT
  let parentR := resolveComps fullT.dropLast
  let name := (fullT.getLast?).getD ""
  if pathExists fs fullR then
    .ok (some fullR)
  else if dirExists fs parentR then
    match (childNames fs parentR).find? (fun f => strToLower f == strToLower name) with
    | some f => .ok (some (parentR ++ [f]))
    | none => .ok none
  else if fileExists fs parentR then
    .error "NotADirectoryError: iterdir"
  else
    .ok none

/-- ToolExecutor._read_file.  Mirrors the source's order: empty-path
check, existence probe with the case-insensitive directory scan, the
"File not found" early return, THEN _validate_project_scope on the
requested path string, then the content read with optional line slicing.
A raised exception (a non-string truthy path, or iterdir on a file)
is the .error case, caught by execute. -/
def readFileTool (fs : Fs) (root : List String) (args : Jval) :
    Except String ToolResult := do
  let kvs ← match args with
    | .obj kvs => pure kvs
    | _ => throw "AttributeError: get"
  let path ← match jGet kvs "path" with
    | none => pure ""
    | some (.str s) => pure s
    | some v => if jTruthy v then throw "TypeError: unsupported path" else pure ""
  if path == "" then
    return { success := false, output := "", error := some "path parameter required" }
  let fullT := joinTo root path
  let target ← readFileProbe fs fullT
  match target with
  | none =>
    return { success := false, output := "", error := some ("File not found: " ++ path) }
  | some tgt =>
    let v := validateProjectScope root path
    if !v.1 then
      return { success := false, output := "", error := some v.2 }
    match fsGet fs tgt with
    | none =>
      return { success := false, output := "",
               error := some "Failed to read file: is a directory" }
    | some content =>
      let startLine : Int ← match jGet kvs "start_line" with
        | none => pure 1
        | some (.num n) => pure n
        | some _ => throw "TypeError: start_line"
      let endLine : Option Int ← match jGet kvs "end_line" with
        | none => pure none
        | some (.num n) => pure (some n)
        | some .null => pure none
        | some v => if jTruthy v then throw "TypeError: end_line" else pure none
      let sliced :=
        if startLine > 1 || (match endLine with | some n => n != 0 | none => false) then
          let lines := strSplitOn content "\n"
          let startIdx : Int := max 0 (startLine - 1)
          let endIdx : Int := match endLine with
            | some n => if n != 0 then n else (lines.length : Int)
            | none => (lines.length : Int)
          String.intercalate "\n" (pySlice lines startIdx endIdx)
        else content
      return { success := true, output := sliced,
               data := some (.obj [("path", .str path), ("size", .num content.length)]) }

/-- Match of the hunk-header regex
'^@@ -(\d+),?(\d*) \+(\d+),?(\d*) @@' at the start of a diff line,
returning (old_start, new_start). -/
def parseHunkHeader (dl : String) : Option (Int × Int) :=
  match dl.data with
  | '@' :: '@' :: ' ' :: '-' :: r1 =>
    let d1 := r1.takeWhile Char.isDigit
    if d1.isEmpty then none else
    let r2 := r1.drop d1.length
    let r3 := if r2.head? == some ',' then (r2.drop 1).dropWhile Char.isDigit else r2
    match r3 with
    | ' ' :: '+' :: r4 =>
      let d3 := r4.takeWhile Char.isDigit
      if d3.isEmpty then none else
      let r5 := r4.drop d3.length
      let r6 := if r5.head? == some ',' then (r5.drop 1).dropWhile Char.isDigit else r5
      match r6 with
      | ' ' :: '@' :: '@' :: _ =>
        some ((digitsToNat d1 : Int), (digitsToNat d3 : Int))
      | _ => none
    | _ => none
  | _ => none

/-- The first hunk of the diff: scans the diff lines for the first hunk
header, collecting the change lines that follow it up to the next header
(the source returns inside this first iteration, so later hunks are never
reached). -/
def findFirstHunk : List String → Option (Int × List String)
  | [] => none
  | dl :: rest =>
    match parseHunkHeader dl with
    | some (oldStart, _) =>
      some (oldStart, rest.takeWhile (fun l => !(strStartsWith l "@@")))
    | none => findFirstHunk rest

/-- ToolExecutor._apply_unified_diff: split original and diff into lines,
find the first hunk header, emit lines[:old_start-1], then additions and
context from the change lines (deletions dropped, unmarked lines kept),
then lines[old_end:] with old_end = old_start + (number of non-addition
change lines); None when no header is found. -/
def applyUnifiedDiff (original diff : String) : Option String :=
  let lines := strSplitOn original "\n"
  match findFirstHunk (strSplitOn diff "\n") with
  | none => none
  | some (oldStart, changes) =>
    let resultHead := pySlice lines 0 (oldStart - 1)
    let mids := changes.filterMap (fun cl =>
      if strStartsWith cl "+" then some (cl.drop 1)
      else if strStartsWith cl "-" then none
      else if strStartsWith cl " " then some (cl.drop 1)
      else some cl)
    let oldEnd : Int :=
      oldStart + ((changes.filter (fun c => !(strStartsWith c "+"))).length : Int)
    some (String.intercalate "\n" (resultHead ++ mids ++ pySliceFrom lines oldEnd))

/-- A per-file entry of the apply_patch results list. -/
structure PatchResult where
  path : String
  success : Bool
  error : Option String := none
  action : Option String := none
deriving Repr, DecidableEq

/-- JSON rendering of a per-file result (the dict the source builds). -/
def encodePatchResult (r : PatchResult) : Jval :=
  .obj ([("path", .str r.path), ("success", .bool r.success)]
    ++ (match r.error with | some e => [("error", Jval.str e)] | none => [])
    ++ (match r.action with | some a => [("action", Jval.str a)] | none => []))

/-- One iteration of the apply_patch file loop.  Returns none for the
skipped empty-path case, otherwise the per-file result; state (filesystem,
pending queue, file index) is threaded through.  A throw models an
exception raised outside the per-file try (a non-dict item or non-string
truthy path). -/
def applyPatchFile (root : List String) (cb : Option SsotCb)
    (hash : String → String) (st : ExecSt) (item : Jval) :
    Except String (Option PatchResult × ExecSt) := do
  let kvs ← match item with
    | .obj kvs => pure kvs
    | _ => throw "AttributeError: get"
  let path ← match jGet kvs "path" with
    | none => pure ""
    | some (.str s) => pure s
    | some v => if jTruthy v then throw "TypeError: unsupported path" else pure ""
  let contentOpt : Option Jval := match jGet kvs "content" with
    | some .null => none
    | none => none
    | some v => some v
  let diffOpt : Option Jval := jGet kvs "diff"
  if path == "" then
    return (none, st)
  let fullT := joinTo root path
  let fullR := resolveComps fullT
  let v := validateProjectScope root path
  if !v.1 then
    return (some { path := path, success := false, error := some v.2 }, st)
  -- the per-file try block
  if dirExists st.fs fullR && !(fileExists st.fs fullR) then
    return (some { path := path, success := false,
                   error := some "IsADirectoryError: read_text" }, st)
  let backup : Option String := fsGet st.fs fullR
  -- determine the new content
  let step : Except PatchResult (Option Jval) :=
    match contentOpt with
    | some c => .ok (some c)
    | none =>
      if jTruthy (diffOpt.getD .null) then
        match diffOpt with
        | some (.str d) =>
          match backup with
          | none => .error { path := path, success := false,
                             error := some "Original file not found" }
          | some b =>
            if b == "" then
              .error { path := path, success := false,
                       error := some "Original file not found" }
            else
              match applyUnifiedDiff b d with
              | none => .error { path := path, success := false,
                                 error := some "Diff apply failed" }
              | some nc =>
                if nc == "" then
                  .error { path := path, success := false,
                           error := some "Diff apply failed" }
                else .ok (some (.str nc))
        | _ => .error { path := path, success := false,
                        error := some "AttributeError: split" }
      else .ok none
  match step with
  | .error r => return (some r, st)
  | .ok newContent =>
    -- SSOT gate: only for truthy new content on a governance file
    let gate : Except PatchResult Unit ⊕ ExecSt :=
      if jTruthy (newContent.getD .null) && isSsotFile path then
        match cb with
        | some callback =>
          if callback (pathName path) (renderAbs fullT) (backup.getD "")
              (newContent.getD .null) then
            .inl (.ok ())
          else
            .inl (.error { path := path, success := false,
                           error := some ("User rejected " ++ pathName path ++ " changes") })
        | none =>
          .inr { st with pending := st.pending ++
                  [⟨path, renderAbs fullT, pathName path, backup.getD "",
                    newContent.getD .null⟩] }
      else .inl (.ok ())
    match gate with
    | .inr st' =>
      return (some { path := path, success := false,
                     error := some ("SSOT file " ++ pathName path ++
                       " requires user approval") }, st')
    | .inl (.error r) => return (some r, st)
    | .inl (.ok ()) =>
      -- write the file, then update the file index
      match newContent with
      | some (.str c) =>
        let fs' := fsSet st.fs fullR c
        let mem' := st.mem.updateFileIndex path c.length (hash c)
        let action := if contentOpt.isSome then "write" else "patch"
        return (some { path := path, success := true, action := some action },
                { st with fs := fs', mem := mem' })
      | some _ =>
        return (some { path := path, success := false,
                       error := some "TypeError: write_text" }, st)
      | none =>
        -- no write; the index is still refreshed when the file exists
        match backup with
        | some b =>
          let mem' := st.mem.updateFileIndex path b.length (hash b)
          return (none, { st with mem := mem' })
        | none => return (none, st)

/-- The apply_patch file loop over the items list. -/
def applyPatchLoop (root : List String) (cb : Option SsotCb)
    (hash : String → String) :
    List Jval → ExecSt → (Except String (List PatchResult)) × ExecSt
  | [], st => (.ok [], st)
  | item :: rest, st =>
    match applyPatchFile root cb hash st item with
    | .error e => (.error e, st)
    | .ok (r, st') =>
      match applyPatchLoop root cb hash rest st' with
      | (.ok rs, st'') => (.ok (r.toList ++ rs), st'')
      | (.error e, st'') => (.error e, st'')

/-- ToolExecutor._apply_patch: validate and apply each file, then report
"Patched k/n files" with per-file status lines; success iff every
per-file entry succeeded. -/
def applyPatchTool (root : List String) (cb : Option SsotCb)
    (hash : String → String) (args : Jval) (st : ExecSt) :
    (Except String ToolResult) × ExecSt :=
  match args with
  | .obj kvs =>
    let filesV := jGetD kvs "files" (.arr [])
    if !jTruthy filesV then
      (.ok { success := false, output := "", error := some "files parameter required" }, st)
    else
      match filesV with
      | .arr items =>
        match applyPatchLoop root cb hash items st with
        | (.error e, st') => (.error e, st')
        | (.ok results, st') =>
          let successCount := (results.filter (fun r => r.success)).length
          let output := "Patched " ++ toString successCount ++ "/" ++
            toString results.length ++ " files:\n" ++
            String.join (results.map (fun r =>
              "  " ++ (if r.success then "✅" else "❌") ++ " " ++ r.path ++
              (match r.error with
               | some e => " (" ++ e ++ ")"
               | none => "") ++ "\n"))
          (.ok { success := successCount == results.length, output := output,
                 data := some (.obj [("results", .arr (results.map encodePatchResult))]) },
           st')
      | _ => (.error "AttributeError: get", st)
  | _ => (.error "AttributeError: get", st)

/-! ### tools.py — _update_ssot and its text munging helpers -/

/-- Length of the leading run of hash characters. -/
def leadHashes (line : String) : Nat := (line.data.takeWhile (fun c => c == '#')).length

/-- A line matching the section pattern '##+ {section}' at its start
(two or more hashes, a space, then the section name, anything after). -/
def isSectionHeaderLine (sec line : String) : Bool :=
  let h := leadHashes line
  2 ≤ h && strStartsWith (line.drop h) (" " ++ sec)

/-- A line at which the lookahead (?=^##|\Z) fires: it starts with two
hashes. -/
def isHashLine (line : String) : Bool := strStartsWith line "##"

/-- Bounds of the first section match in MULTILINE/DOTALL mode: the header
line index and, lazily, the index of the next '##' line (none when the
match runs to the end of the text). -/
def sectionBounds (sec : String) (lines : List String) : Option (Nat × Option Nat) :=
  match lines.findIdx? (fun l => isSectionHeaderLine sec l) with
  | none => none
  | some i =>
    match (lines.drop (i + 1)).findIdx? isHashLine with
    | some k => some (i, some (i + 1 + k))
    | none => some (i, none)

/-- The "append" action with a section: insert the content at the end of
the matched section (rstrip of everything up to the match end, the
content, then the remainder), or add a new section when none matches. -/
def ssotAppendSection (sec content text : String) : String :=
  let lines := strSplitOn text "\n"
  match sectionBounds sec lines with
  | none => text ++ "\n## " ++ sec ++ "\n" ++ content ++ "\n"
  | some (_, some j) =>
    rstripStr (String.intercalate "\n" (lines.take j)) ++ "\n" ++ content ++ "\n" ++
      String.intercalate "\n" (lines.drop j)
  | some (_, none) =>
    rstripStr text ++ "\n" ++ content ++ "\n"

/-- A checklist item line, '- [ ]' or '- [x]' at the line start. -/
def isCheckboxLine (line : String) : Bool :=
  strStartsWith line "- [ ]" || strStartsWith line "- [x]"

/-- The "add_item" action: append "- [ ] content" after the last checkbox
of the section, or at the section end when it has none; no change when the
section is not found. -/
def ssotAddItem (sec content text : String) : String :=
  let lines := strSplitOn text "\n"
  match sectionBounds sec lines with
  | none => text
  | some (i, j) =>
    let jEnd := j.getD lines.length
    let segment := (lines.take jEnd).drop i
    match (segment.enum.filter (fun e => isCheckboxLine e.2)).getLast? with
    | some (k, _) =>
      String.intercalate "\n"
        (lines.take (i + k + 1) ++ ["- [ ] " ++ content] ++ lines.drop (i + k + 1))
    | none =>
      rstripStr (String.intercalate "\n" (lines.take jEnd)) ++ "\n- [ ] " ++ content ++
        "\n" ++ String.intercalate "\n" (lines.drop jEnd)

/-- The "check_item" action: every line starting with "- [ ] content" has
that matched part replaced by "- [x] content" (the line tail is kept). -/
def ssotCheckItem (content text : String) : String :=
  String.intercalate "\n" ((strSplitOn text "\n").map (fun line =>
    if strStartsWith line ("- [ ] " ++ content) then
      "- [x] " ++ content ++ line.drop ("- [ ] " ++ content).length
    else line))

/-- A line equal to the replace pattern header '##+ {section}\n': two or
more hashes, a space, the section name and nothing else. -/
def isExactSectionHeader (sec line : String) : Bool :=
  let h := leadHashes line
  2 ≤ h && line.drop h == " " ++ sec

/-- Line-level engine of the "replace" action: each exactly-matching
header keeps its line, the old section body up to the next '##' line (or
the end) is replaced by the content plus a newline, and scanning
continues with the remainder. -/
def ssotReplaceGo (sec content : String) : Nat → List String → List String
  | 0, ls => ls
  | _, [] => []
  | fuel + 1, line :: rest =>
    if isExactSectionHeader sec line then
      let remain := rest.dropWhile (fun l => !(isHashLine l))
      if remain.isEmpty then
        line :: strSplitOn content "\n" ++ [""]
      else
        line :: strSplitOn content "\n" ++ ssotReplaceGo sec content fuel remain
    else
      line :: ssotReplaceGo sec content fuel rest

/-- The "replace" action on the whole text. -/
def ssotReplace (sec content text : String) : String :=
  let lines := strSplitOn text "\n"
  String.intercalate "\n" (ssotReplaceGo sec content lines.length lines)

/-- The "Last updated:" refresh: rewrite the tail of every line containing
"Last updated:", otherwise insert a stamp line at index 1. -/
def ssotTimestamp (ts old : String) : String :=
  if strContains "Last updated:" old then
    String.intercalate "\n" ((strSplitOn old "\n").map (fun line =>
      match splitSub "Last updated:".data line.data with
      | some (before, _) => (⟨before⟩ : String) ++ "Last updated: " ++ ts
      | none => line))
  else
    let lines := strSplitOn old "\n"
    if !lines.isEmpty then
      String.intercalate "\n" (lines.take 1 ++ ["Last updated: " ++ ts] ++ lines.drop 1)
    else
      "Last updated: " ++ ts ++ "\n" ++ old

/-- Python str.replace(".md", "") (all occurrences removed). -/
def stripMd (s : String) : String :=
  String.intercalate "" (strSplitOn s ".md")

/-- One iteration of the update_ssot loop: validate the file name, read
the old content (or synthesize a heading), refresh the timestamp, apply
the requested action, then — only if an approval callback exists — ask for
approval; otherwise write directly. -/
def updateSsotFile (root : List String) (cb : Option SsotCb) (ts : String)
    (st : ExecSt) (update : Jval) : Except String (String × ExecSt) := do
  let ukvs ← match update with
    | .obj kvs => pure kvs
    | _ => throw "AttributeError: get"
  let fileName := match jGet ukvs "file" with
    | some (.str s) => s
    | _ => ""
  let sect := match jGet ukvs "section" with
    | some (.str s) => s
    | _ => ""
  let content := match jGet ukvs "content" with
    | some (.str s) => s
    | _ => ""
  let action := match jGet ukvs "action" with
    | some (.str s) => s
    | none => "append"
    | _ => ""
  if !(SSOT_FILES.contains fileName) then
    return ("❌ " ++ fileName ++ ": Not a valid SSOT file", st)
  let filePath := root ++ [fileName]
  let old := match fsGet st.fs filePath with
    | some c => c
    | none => "# " ++ stripMd fileName ++ "\n"
  let stamped := ssotTimestamp ts old
  let nc :=
    if action == "append" then
      if !(sect == "") then ssotAppendSection sect content stamped
      else stamped ++ "\n" ++ content ++ "\n"
    else if action == "add_item" then
      if !(sect == "") then ssotAddItem sect content stamped else stamped
    else if action == "check_item" then
      ssotCheckItem content stamped
    else if action == "replace" then
      if !(sect == "") then ssotReplace sect content stamped else stamped
    else stamped
  match cb with
  | some callback =>
    if !(callback fileName (renderAbs filePath) old (.str nc)) then
      return ("⏭️ " ++ fileName ++ ": Skipped (not approved)", st)
    else
      return ("✅ " ++ fileName ++ ": Updated successfully",
              { st with fs := fsSet st.fs filePath nc })
  | none =>
    return ("✅ " ++ fileName ++ ": Updated successfully",
            { st with fs := fsSet st.fs filePath nc })

/-- The update_ssot loop over the updates list. -/
def updateSsotLoop (root : List String) (cb : Option SsotCb) (ts : String) :
    List Jval → ExecSt → (Except String (List String)) × ExecSt
  | [], st => (.ok [], st)
  | u :: rest, st =>
    match updateSsotFile root cb ts st u with
    | .error e => (.error e, st)
    | .ok (r, st') =>
      match updateSsotLoop root cb ts rest st' with
      | (.ok rs, st'') => (.ok (r :: rs), st'')
      | (.error e, st'') => (.error e, st'')

/-- ToolExecutor._update_ssot: apply each requested document update;
success iff every per-file message carries the success mark. -/
def updateSsotTool (root : List String) (cb : Option SsotCb) (args : Jval)
    (st : ExecSt) : (Except String ToolResult) × ExecSt :=
  match args with
  | .obj kvs =>
    let updatesV := jGetD kvs "updates" (.arr [])
    if !jTruthy updatesV then
      (.ok { success := false, output := "", error := some "No updates provided" }, st)
    else
      match updatesV with
      | .arr items =>
        let ts := tsRender st.mem.clock
        let st0 := { st with mem := { st.mem with clock := st.mem.clock + 1 } }
        match updateSsotLoop root cb ts items st0 with
        | (.error e, st') => (.error e, st')
        | (.ok results, st') =>
          (.ok { success := results.all (fun r => strContains "✅" r),
                 output := String.intercalate "\n" results,
                 data := some (.obj [("updated_files",
                   .arr (items.map (fun u => jGetD (jObjEntries u) "file" .null)))]) },
           st')
      | _ => (.error "AttributeError: get", st)
  | _ => (.error "AttributeError: get", st)

/-! ### tools.py — the remaining handlers and execute -/

/-- Outcome of a subprocess.run call. -/
inductive ProcOutcome where
  | completed (returncode : Int) (stdout stderr : String)
  | timedOut
  | oserror (msg : String)
deriving Repr

/-- Environment of the subprocess-backed handlers.  search, list_files,
get_diff, git_commit and git_push are modelled abstractly: each wraps an
external process (ripgrep, the filesystem walk fallback, git) whose
outcome — the ToolResult the handler builds from it, or a raised
exception — is supplied by the environment.  run_tests is structured
because it also writes a work log. -/
structure ToolEnv where
  search : Jval → Except String ToolResult
  listFiles : Jval → Except String ToolResult
  getDiff : Jval → Except String ToolResult
  gitCommit : Jval → Except String ToolResult
  gitPush : Jval → Except String ToolResult
  runTests : String → ProcOutcome

/-- ToolExecutor._run_tests: run the command; on completion, log a TEST
work entry and succeed iff the exit code is 0; a timeout or an OS error is
caught and reported without a log entry. -/
def runTestsTool (env : ToolEnv) (args : Jval) (st : ExecSt) :
    (Except String ToolResult) × ExecSt :=
  match args with
  | .obj kvs =>
    let cmdV := jGetD kvs "cmd" (.str "pytest")
    match cmdV with
    | .str cmd =>
      match env.runTests cmd with
      | .completed rc out errout =>
        let success := rc == 0
        let output := out ++ (if !(errout == "") then "\n\nSTDERR:\n" ++ errout else "")
        let entry := st.mem.logWork "TEST" cmd ("Exit code: " ++ toString rc)
          (if success then "SUCCESS" else "FAIL")
          (jDump (.obj [("returncode", .num rc), ("output", .str (output.take 1000))]))
        let st' := { st with mem := entry }
        (.ok { success := success, output := output,
               data := some (.obj [("returncode", .num rc)]) }, st')
      | .timedOut =>
        (.ok { success := false, output := "", error := some "Test timeout" }, st)
      | .oserror m =>
        (.ok { success := false, output := "",
               error := some ("Test execution failed: " ++ m) }, st)
    | _ =>
      (.ok { success := false, output := "",
             error := some "Test execution failed: invalid cmd" }, st)
  | _ => (.error "AttributeError: get", st)

/-- Configuration of a ToolExecutor: resolved project root, the optional
SSOT approval callback, the md5 function (abstract), and the subprocess
environment. -/
structure ExecCfg where
  root : List String
  cb : Option SsotCb
  hash : String → String
  env : ToolEnv

/-- The handlers table of ToolExecutor.execute, as a name dispatch. -/
def dispatchTool (cfg : ExecCfg) (name : String) :
    Option (Jval → ExecSt → (Except String ToolResult) × ExecSt) :=
  if name == "read_file" then
    some (fun args st => (readFileTool st.fs cfg.root args, st))
  else if name == "search" then
    some (fun args st => (cfg.env.search args, st))
  else if name == "apply_patch" then
    some (fun args st => applyPatchTool cfg.root cfg.cb cfg.hash args st)
  else if name == "run_tests" then
    some (fun args st => runTestsTool cfg.env args st)
  else if name == "list_files" then
    some (fun args st => (cfg.env.listFiles args, st))
  else if name == "get_diff" then
    some (fun args st => (cfg.env.getDiff args, st))
  else if name == "update_ssot" then
    some (fun args st => updateSsotTool cfg.root cfg.cb args st)
  else if name == "git_commit" then
    some (fun args st => (cfg.env.gitCommit args, st))
  else if name == "git_push" then
    some (fun args st => (cfg.env.gitPush args, st))
  else none

/-- ToolExecutor.execute: dispatch on the tool name; an unknown name
returns the error result immediately (note: without a work log).  A known
handler runs inside try/except: its result is logged as SUCCESS/FAIL and
returned; a raised exception is logged as FAIL and converted to a failure
ToolResult carrying the exception message. -/
def execute (cfg : ExecCfg) (name : String) (args : Jval) (st : ExecSt) :
    ToolResult × ExecSt :=
  match dispatchTool cfg name with
  | none =>
    ({ success := false, output := "", error := some ("Unknown tool: " ++ name) }, st)
  | some h =>
    match h args st with
    | (.ok r, st') =>
      let mem' := st'.mem.logWork "TOOL" name ("Args: " ++ (jDump args).take 100)
        (if r.success then "SUCCESS" else "FAIL") (jDump (.obj []))
      (r, { st' with mem := mem' })
    | (.error e, st') =>
      let mem' := st'.mem.logWork "TOOL" name (jDump args) "FAIL"
        (jDump (.obj [("error", .str e)]))
      ({ success := false, output := "", error := some e }, { st' with mem := mem' })

/-! ### llm.py — LLMClient._parse_tool_calls

Five strategies, each lower-priority one attempted only when every
earlier one produced no calls.  The literal-delimited regexes of the
source are implemented as leftmost scans; a parsed tool call is the raw
JSON object. -/

/-- Strategy 1 scan: every '```json ... ```' fenced segment, stripped —
re.findall of the fenced-block pattern (lazy body, so a block closes at
the first following fence). -/
def fencedBlocks : Nat → List Char → List (List Char)
  | 0, _ => []
  | fuel + 1, cs =>
    match splitSub "```json".data cs with
    | none => []
    | some (_, afterOpen) =>
      match splitSub "```".data afterOpen with
      | none => []
      | some (body, afterClose) => trimChars body :: fencedBlocks fuel afterClose

/-- Calls recognized inside one parsed JSON document: a list keeps its
dict items carrying a "tool" key; a dict with a "tool" key is itself a
call. -/
def callsFromJson : Jval → List Jval
  | .arr items => items.filter (fun it =>
      match it with
      | .obj kvs => jHasKey kvs "tool"
      | _ => false)
  | .obj kvs => if jHasKey kvs "tool" then [.obj kvs] else []
  | _ => []

/-- Strategy 1: parse each fenced json block, silently skipping blocks
whose JSON is malformed. -/
def strat1 (content : String) : List Jval :=
  (fencedBlocks (content.data.length + 1) content.data).foldl
    (fun acc body =>
      match parseJsonChars body with
      | some v => acc ++ callsFromJson v
      | none => acc) []

/-- First occurrence of <tag>(.*?)</tag> (lazy, DOTALL): the text between
the first opening tag and the first closing tag after it. -/
def extractTagFirst (tag : String) (cs : List Char) : Option (List Char) :=
  match splitSub ("<" ++ tag ++ ">").data cs with
  | none => none
  | some (_, after) =>
    match splitSub ("</" ++ tag ++ ">").data after with
    | none => none
    | some (inner, _) => some inner

/-- All occurrences of <tag>(.*?)</tag>, scanning left to right. -/
def extractTagsAll (tag : String) : Nat → List Char → List (List Char)
  | 0, _ => []
  | fuel + 1, cs =>
    match splitSub ("<" ++ tag ++ ">").data cs with
    | none => []
    | some (_, after) =>
      match splitSub ("</" ++ tag ++ ">").data after with
      | none => []
      | some (inner, rest) => inner :: extractTagsAll tag fuel rest

/-- One <file> body of strategy 2: parsed as JSON when possible, else
built from its <path> (stripped) and <content> (raw) tags. -/
def fileFromTags (fm : List Char) : Option Jval :=
  match parseJsonChars fm with
  | some v => some v
  | none =>
    match extractTagFirst "path" fm, extractTagFirst "content" fm with
    | some p, some c =>
      some (.obj [("path", .str ⟨trimChars p⟩), ("content", .str ⟨c⟩)])
    | _, _ => none

/-- Strategy 2: the dedicated <apply_patch> parsing — the stripped body
read as a JSON list (or the "files" entry of a JSON dict), else the
<file> tags, else a direct <path>/<content> pair; a truthy files value
becomes one apply_patch call. -/
def strat2 (content : String) : List Jval :=
  match extractTagFirst "apply_patch" content.data with
  | none => []
  | some inner0 =>
    let inner := trimChars inner0
    let m1 : Option Jval := match parseJsonChars inner with
      | some (.arr l) => some (.arr l)
      | some (.obj kvs) => jGet kvs "files"
      | _ => none
    let filesA : Jval := m1.getD (.arr [])
    let filesB : Jval :=
      if jTruthy filesA then filesA
      else .arr ((extractTagsAll "file" (inner.length + 1) inner).filterMap fileFromTags)
    let filesC : Jval :=
      if jTruthy filesB then filesB
      else
        match extractTagFirst "path" inner, extractTagFirst "content" inner with
        | some p, some c =>
          .arr [.obj [("path", .str ⟨trimChars p⟩), ("content", .str ⟨c⟩)]]
        | _, _ => .arr []
    if jTruthy filesC then
      [.obj [("tool", .str "apply_patch"), ("args", .obj [("files", filesC)])]]
    else []

/-- The xml_tools table of strategy 3 (dict insertion order). -/
def xmlToolsList : List (String × List String) :=
  [("read_file", ["path"]),
   ("search", ["query", "path"]),
   ("run_tests", ["cmd"]),
   ("list_files", ["path"]),
   ("get_diff", []),
   ("update_ssot", ["updates"]),
   ("git_commit", ["message", "files"]),
   ("git_push", ["remote", "branch"])]

/-- A strategy-3 parameter value: stripped; when it looks like a JSON
array or object it is parsed, keeping the raw string on failure. -/
def xmlArgValue (raw : List Char) : Jval :=
  let value := trimChars raw
  let s : String := ⟨value⟩
  if strStartsWith s "[" || strStartsWith s "\x7b" then
    match parseJsonChars value with
    | some v => v
    | none => .str s
  else .str s

/-- Strategy 3: for every tool of the table, the first <tool>...</tool>
region yields a call from its <param> tags (emitted when some parameter
was found, or when the tool takes none). -/
def strat3 (content : String) : List Jval :=
  xmlToolsList.foldl (fun acc e =>
    match extractTagFirst e.1 content.data with
    | none => acc
    | some inner =>
      let args := e.2.foldl (fun a param =>
        match extractTagFirst param inner with
        | some pv => a ++ [(param, xmlArgValue pv)]
        | none => a) []
      if !args.isEmpty || e.2.isEmpty then
        acc ++ [.obj [("tool", .str e.1), ("args", .obj args)]]
      else acc) []

/-- Strategy 4: each stripped line starting with a brace and containing
the quoted key "tool" is parsed as JSON; parse failures are skipped. -/
def strat4 (content : String) : List Jval :=
  (strSplitOn content "\n").foldl (fun acc line0 =>
    let line : String := ⟨trimChars line0.data⟩
    if strStartsWith line "\x7b" && strContains "\"tool\"" line then
      match parseJson line with
      | some (.obj kvs) => if jHasKey kvs "tool" then acc ++ [.obj kvs] else acc
      | _ => acc
    else acc) []

/-- Literal expected at the head of the input. -/
def expectLit (lit cs : List Char) : Option (List Char) :=
  if lit.isPrefixOf cs then some (cs.drop lit.length) else none

/-- Regex \s* (Python \s also covers \f and \v, which are not modelled). -/
def dropWs (cs : List Char) : List Char := cs.dropWhile Char.isWhitespace

/-- The lazy tail \x7b.*?\x7d\s*\x7d of the strategy-5 regex: consume up
to the first closing brace that is followed (after whitespace) by another
closing brace. -/
def lazyClose : List Char → Option (List Char)
  | [] => none
  | c :: rest =>
    if c == '\x7d' then
      match expectLit ['\x7d'] (dropWs rest) with
      | some r2 => some r2
      | none => lazyClose rest
    else lazyClose rest

/-- Attempted match of the strategy-5 regex at the current position,
returning the remaining input after the match. -/
def matchToolObjTail (cs : List Char) : Option (List Char) := do
  let r ← expectLit ['\x7b'] cs
  let r ← expectLit "\"tool\"".data (dropWs r)
  let r ← expectLit [':'] (dropWs r)
  let r ← expectLit ['"'] (dropWs r)
  let nameChars := r.takeWhile (fun c => !(c == '"'))
  if nameChars.isEmpty then none else do
  let r ← expectLit ['"'] (r.drop nameChars.length)
  let r ← expectLit [','] (dropWs r)
  let r ← expectLit "\"args\"".data (dropWs r)
  let r ← expectLit [':'] (dropWs r)
  let r ← expectLit ['\x7b'] (dropWs r)
  lazyClose r

/-- Strategy 5 scan: leftmost non-overlapping matches of the direct JSON
object pattern. -/
def strat5Scan : Nat → List Char → List (List Char)
  | 0, _ => []
  | _, [] => []
  | fuel + 1, c :: rest =>
    match matchToolObjTail (c :: rest) with
    | some r =>
      ((c :: rest).take ((c :: rest).length - r.length)) :: strat5Scan fuel r
    | none => strat5Scan fuel rest

/-- Strategy 5: parse each matched object, keeping those with a "tool"
key. -/
def strat5 (content : String) : List Jval :=
  (strat5Scan (content.data.length + 1) content.data).foldl
    (fun acc m =>
      match parseJsonChars m with
      | some (.obj kvs) => if jHasKey kvs "tool" then acc ++ [.obj kvs] else acc
      | _ => acc) []

/-- LLMClient._parse_tool_calls: the five strategies in priority order,
each tried only when all earlier ones yielded nothing; None when no
strategy recognized a call. -/
def parseToolCalls (content : String) : Option (List Jval) :=
  let calls :=
    let t1 := strat1 content
    if !t1.isEmpty then t1 else
    let t2 := strat2 content
    if !t2.isEmpty then t2 else
    let t3 := strat3 content
    if !t3.isEmpty then t3 else
    let t4 := strat4 content
    if !t4.isEmpty then t4 else
    strat5 content
  if calls.isEmpty then none else some calls

/-! ### context.py — ContextBuilder -/

/-- A related-files entry (the feature is disabled in the source, so the
list is always empty). -/
structure RelatedFile where
  path : String
  content : String
deriving Repr

/-- The context pack dataclass. -/
structure ContextPack where
  projectState : String
  currentTask : String
  relatedFiles : List RelatedFile
  recentTurns : List (String × String)
  openIssues : List (String × String)
  recentChanges : String
deriving Repr

/-- Outcome of the `git status --short` subprocess of
_get_recent_changes. -/
inductive GitStatusOutcome where
  | completed (returncode : Int) (stdout : String)
  | failure
deriving Repr

/-- ContextBuilder._get_recent_changes: stdout (truncated) on exit 0 with
"(No changes)" for empty output, "(Not a git repo)" on a nonzero exit,
and the bare empty string when the subprocess raises (timeout, missing
git, any exception). -/
def getRecentChanges : GitStatusOutcome → String
  | .completed rc out =>
    if rc == 0 then (if out == "" then "(No changes)" else out.take 300)
    else "(Not a git repo)"
  | .failure => ""

/-- ContextBuilder._read_ssot: the first 50 lines of HANDOVER.md and the
first 30 of CONSTITUTION.md under their headers, or the placeholder when
neither exists. -/
def readSsot (fs : Fs) (root : List String) : String :=
  let parts :=
    (match fsGet fs (root ++ ["HANDOVER.md"]) with
     | some content =>
       ["## Current State (HANDOVER.md)",
        String.intercalate "\n" ((strSplitOn content "\n").take 50)]
     | none => []) ++
    (match fsGet fs (root ++ ["CONSTITUTION.md"]) with
     | some content =>
       ["\n## Rules (CONSTITUTION.md)",
        String.intercalate "\n" ((strSplitOn content "\n").take 30)]
     | none => [])
  if parts.isEmpty then "(No SSOT documents found)"
  else String.intercalate "\n" parts

/-- The context entries of config/models.yaml read by build (defaults
apply when the file or keys are missing). -/
structure CtxConfig where
  maxRecentTurns : Nat := 5
  maxRelatedFiles : Nat := 10
deriving Repr

/-- ContextBuilder._get_related_files: disabled in the source. -/
def getRelatedFiles (_query : String) (_maxFiles : Nat) : List RelatedFile := []

/-- ContextBuilder.build: assemble the context pack from the SSOT
documents, the recent conversation turns, the open issues and the git
status outcome.  Total — every input state yields a pack. -/
def contextBuild (fs : Fs) (root : List String) (cfg : CtxConfig)
    (mem : MemoryStore) (git : GitStatusOutcome) (task query : String) :
    ContextPack :=
  { projectState := readSsot fs root
    currentTask := task
    relatedFiles := getRelatedFiles query cfg.maxRelatedFiles
    recentTurns := (mem.getRecentTurns cfg.maxRecentTurns).map (fun t => (t.role, t.content))
    openIssues := mem.getOpenIssues.map (fun i => (i.severity, i.title))
    recentChanges := getRecentChanges git }

/-- ContextPack.to_prompt. -/
def ContextPack.toPrompt (p : ContextPack) : String :=
  let sections :=
    ["[PROJECT STATE]", p.projectState, ""]
    ++ (if !(p.currentTask == "") then ["[CURRENT TASK]", p.currentTask, ""] else [])
    ++ (if !p.relatedFiles.isEmpty then
          ["[RELATED FILES]"] ++
          (p.relatedFiles.take 5).foldr (fun f acc =>
            ["--- " ++ f.path ++ " ---",
             if f.content.length > 500 then f.content.take 500 ++ "\n... (truncated)"
             else f.content, ""] ++ acc) []
        else [])
    ++ (if !p.openIssues.isEmpty then
          ["[OPEN ISSUES]"] ++
          (p.openIssues.take 3).map (fun i => "- [" ++ i.1 ++ "] " ++ i.2) ++ [""]
        else [])
    ++ (if !(p.recentChanges == "") then
          ["[RECENT CHANGES]", p.recentChanges.take 500, ""] else [])
    ++ (if !p.recentTurns.isEmpty then
          ["[RECENT CONVERSATION]"] ++
          (pySliceFrom p.recentTurns (-3)).map (fun t => t.1 ++ ": " ++ t.2.take 200)
          ++ [""]
        else [])
  String.intercalate "\n" sections

/-! ### agent.py — Agent.process

The LLM transport is abstract: generate_with_tools is a function from the
iteration index and the built prompt to the response content (or a raised
exception), and the summarizing generate call likewise takes its prompt.
generate_with_tools parses tool calls out of the returned content with
parseToolCalls, exactly as the source does. -/

/-- Agent.MAX_ITERATIONS. -/
def MAX_ITERATIONS : Nat := 5

/-- An all_tool_results entry (the auto run_tests entry carries no args
and no error key). -/
structure TREntry where
  tool : String
  args : Option Jval := none
  success : Bool
  output : String
  error : Option String := none
deriving Repr

/-- Agent response dataclass. -/
structure AgentResponse where
  message : String
  toolResults : List TREntry := []
  error : Option String := none
deriving Repr

/-- Agent._extract_search_query: whitespace-split words longer than two
characters, first three joined. -/
def extractSearchQuery (userInput : String) : String :=
  let words := (strSplitPred Char.isWhitespace userInput).filter (fun w => !(w == ""))
  let keywords := words.filter (fun w => w.length > 2)
  String.intercalate " " (keywords.take 3)

/-- Agent._build_prompt. -/
def buildPrompt (userInput : String) (pack : ContextPack)
    (toolResults : List TREntry) : String :=
  let parts :=
    [pack.toPrompt]
    ++ (if !toolResults.isEmpty then
          ["[TOOL RESULTS]"] ++
          (pySliceFrom toolResults (-3)).map (fun tr =>
            (if tr.success then "✅" else "❌") ++ " " ++ tr.tool ++ ": " ++
              tr.output.take 200) ++ [""]
        else [])
    ++ ["[USER REQUEST]", userInput]
  String.intercalate "\n" parts

/-- Agent._build_summary_prompt. -/
def buildSummaryPrompt (userInput : String) (toolResults : List TREntry) : String :=
  let parts :=
    ["The following tasks have been completed. Please summarize the results.",
     "", "[Request] " ++ userInput, "", "[Performed Tasks]"]
    ++ toolResults.foldr (fun tr acc =>
        ["- " ++ tr.tool ++ ": " ++ (if tr.success then "success" else "failed")]
        ++ (match tr.error with
            | some e => ["  Error: " ++ e]
            | none => []) ++ acc) []
  String.intercalate "\n" parts

/-- The test-file existence probe before the automatic pytest run:
rglob("test_*.py"), rglob("*_test.py") or rglob("tests/*.py") under the
project root. -/
def testFilesExist (fs : Fs) (root : List String) : Bool :=
  fs.any (fun e =>
    isWithin root e.1 &&
    (let name := (e.1.getLast?).getD ""
     (strStartsWith name "test_" && strEndsWith name ".py") ||
     strEndsWith name "_test.py" ||
     (strEndsWith name ".py" && decide (2 ≤ e.1.length) &&
       ((e.1.get? (e.1.length - 2)).getD "" == "tests"))))

/-- Dispatch of one round's parsed tool calls through
ToolExecutor.execute, accumulating all_tool_results entries. -/
def runToolCalls (cfg : ExecCfg) :
    List Jval → List TREntry → ExecSt → List TREntry × ExecSt
  | [], acc, st => (acc, st)
  | tc :: rest, acc, st =>
    let toolName := jGetStr tc "tool"
    let args := jGetD (jObjEntries tc) "args" (.obj [])
    let (r, st') := execute cfg toolName args st
    runToolCalls cfg rest
      (acc ++ [{ tool := toolName, args := some args, success := r.success,
                 output := r.output.take 500, error := r.error }]) st'

/-- The automatic pytest run after a round: fires when any accumulated
apply_patch entry succeeded and test files exist. -/
def autoTest (cfg : ExecCfg) (results : List TREntry) (st : ExecSt) :
    List TREntry × ExecSt :=
  if results.any (fun e => e.tool == "apply_patch" && e.success) then
    if testFilesExist st.fs cfg.root then
      let (tr, st') := execute cfg "run_tests" (.obj [("cmd", .str "pytest -q")]) st
      (results ++ [{ tool := "run_tests (auto)", success := tr.success,
                     output := tr.output.take 300 }], st')
    else (results, st)
  else (results, st)

/-- The LLM transport: generate_with_tools and the final summarizing
generate, as functions of the iteration index / prompt. -/
structure AgentCtx where
  cfg : ExecCfg
  ctxCfg : CtxConfig
  git : GitStatusOutcome
  transport : Nat → String → Except String String
  summary : String → Except String String

/-- Result of the iteration loop of Agent.process. -/
structure LoopOut where
  finalFromLoop : Option String
  results : List TREntry
  st : ExecSt
  err : Option String
  gens : Nat
deriving Repr

/-- The for-iteration loop of Agent.process, with the remaining iteration
count as fuel (starting at MAX_ITERATIONS); gens counts the
generate_with_tools calls made. -/
def agentLoop (ctx : AgentCtx) (userInput : String) (pack : ContextPack) :
    Nat → List TREntry → ExecSt → LoopOut
  | 0, acc, st => ⟨none, acc, st, none, 0⟩
  | n + 1, acc, st =>
    let prompt := buildPrompt userInput pack acc
    match ctx.transport (MAX_ITERATIONS - (n + 1)) prompt with
    | .error e => ⟨none, acc, st, some ("LLM call failed: " ++ e), 1⟩
    | .ok content =>
      match parseToolCalls content with
      | some calls =>
        let r1 := runToolCalls ctx.cfg calls acc st
        let r2 := autoTest ctx.cfg r1.1 r1.2
        let out := agentLoop ctx userInput pack n r2.1 r2.2
        ⟨out.finalFromLoop, out.results, out.st, out.err, out.gens + 1⟩
      | none => ⟨some content, acc, st, none, 1⟩

/-- Observable outcome of Agent.process: the response, the final state,
and how many generate_with_tools / summarizing generate calls ran. -/
structure AgentOut where
  resp : AgentResponse
  st : ExecSt
  gens : Nat
  summaryCalls : Nat
deriving Repr

/-- Agent.process: record the user turn, build the context pack, run at
most MAX_ITERATIONS generate-then-dispatch rounds, then either use the
tool-free content that broke the loop or issue one summarizing generate
call (with a templated fallback on failure), record the assistant turn
and the CHAT work log.  An LLM transport error returns early with an
error response. -/
def agentProcess (ctx : AgentCtx) (userInput : String) (st : ExecSt) : AgentOut :=
  let st1 := { st with mem := st.mem.addTurn "user" userInput }
  let query := extractSearchQuery userInput
  let pack := contextBuild st1.fs ctx.cfg.root ctx.ctxCfg st1.mem ctx.git userInput query
  let res := agentLoop ctx userInput pack MAX_ITERATIONS [] st1
  match res.err with
  | some e => ⟨{ message := "", error := some e }, res.st, res.gens, 0⟩
  | none =>
    let fin :=
      match res.finalFromLoop with
      | some c => if c == "" then none else some c
      | none => none
    match fin with
    | some c =>
      let mem' := ((res.st.mem.addTurn "assistant" (c.take 500)).logWork "CHAT"
        "agent" (userInput.take 100) "SUCCESS"
        (jDump (.obj [("tool_calls", .num res.results.length),
                      ("response_length", .num c.length)])))
      ⟨{ message := c, toolResults := res.results }, { res.st with mem := mem' },
       res.gens, 0⟩
    | none =>
      let sp := buildSummaryPrompt userInput res.results
      let finalResp :=
        match ctx.summary sp with
        | .ok s => s
        | .error e => "Task complete. (Summary generation failed: " ++ e ++ ")"
      let mem' := ((res.st.mem.addTurn "assistant" (finalResp.take 500)).logWork "CHAT"
        "agent" (userInput.take 100) "SUCCESS"
        (jDump (.obj [("tool_calls", .num res.results.length),
                      ("response_length", .num finalResp.length)])))
      ⟨{ message := finalResp, toolResults := res.results },
       { res.st with mem := mem' }, res.gens, 1⟩

/-! ### Concrete fixtures for witnesses and counterexamples -/

/-- An always-succeeding subprocess oracle. -/
def trivOracle : Jval → Except String ToolResult :=
  fun _ => .ok { success := true, output := "ok" }

/-- A benign tool environment. -/
def trivEnv : ToolEnv :=
  ⟨trivOracle, trivOracle, trivOracle, trivOracle, trivOracle,
   fun _ => .completed 0 "pass" ""⟩

/-- An executor over project root /r with no approval callback. -/
def demoCfg : ExecCfg := ⟨["r"], none, id, trivEnv⟩

/-- An empty starting state. -/
def demoSt : ExecSt := ⟨[], .init none, []⟩

/-- A tool environment whose git push raises. -/
def failEnv : ToolEnv := { trivEnv with gitPush := fun _ => .error "boom" }

/-- An executor whose git push handler raises. -/
def failCfg : ExecCfg := ⟨["r"], none, id, failEnv⟩

/-! ### Theorems for the claims -/

/-- C9: the unified-diff applier mishandles its hunks.  On "a\nb\nc" with
the single-hunk diff replacing line 2, the code returns "a\nB" — the line
"c" after the hunk is silently dropped (old_end is off by one) — instead
of the reconstruction "a\nB\nc"; on a two-hunk diff only the first hunk is
applied (the change D of the second hunk never appears); a diff without a
valid hunk header does fail as the claim states. -/
theorem c9_diff_off_by_one :
    applyUnifiedDiff "a\nb\nc" "@@ -2,1 +2,1 @@\n-b\n+B" = some "a\nB" ∧
    applyUnifiedDiff "a\nb\nc\nd"
      "@@ -2,1 +2,1 @@\n-b\n+B\n@@ -4,1 +4,1 @@\n-d\n+D" = some "a\nB\nd" ∧
    applyUnifiedDiff "a\nb\nc" "no hunk header here" = none := by
  refine ⟨?_, ?_, ?_⟩ <;> rfl

/-- C1 counterexample: with no approval callback registered, update_ssot
on the governance file HANDOVER.md writes the file to disk immediately,
queues no PendingSSOTChange, and reports success — and apply_patch with an
empty new content on HANDOVER.md also writes through, bypassing the
approval gate.  Both contradict the claim that such writes never modify
the file and always queue exactly one pending change. -/
theorem c1_counterexample :
    (execute demoCfg "update_ssot"
      (.obj [("updates", .arr [.obj [("file", .str "HANDOVER.md"),
        ("content", .str "x")]])]) demoSt).2.fs
      = [(["r", "HANDOVER.md"], "# HANDOVER\nLast updated: t0\n\nx\n")] ∧
    (execute demoCfg "update_ssot"
      (.obj [("updates", .arr [.obj [("file", .str "HANDOVER.md"),
        ("content", .str "x")]])]) demoSt).2.pending = [] ∧
    (execute demoCfg "update_ssot"
      (.obj [("updates", .arr [.obj [("file", .str "HANDOVER.md"),
        ("content", .str "x")]])]) demoSt).1.success = true ∧
    (execute demoCfg "apply_patch"
      (.obj [("files", .arr [.obj [("path", .str "HANDOVER.md"),
        ("content", .str "")]])]) demoSt).2.fs = [(["r", "HANDOVER.md"], "")] ∧
    (execute demoCfg "apply_patch"
      (.obj [("files", .arr [.obj [("path", .str "HANDOVER.md"),
        ("content", .str "")]])]) demoSt).2.pending = [] := by
  refine ⟨?_, ?_, ?_, ?_, ?_⟩ <;> rfl

/-- C3 counterexample: execute with an unknown tool name returns the
error result immediately and writes NO WorkLog entry, contradicting the
claim that every invocation is recorded. -/
theorem c3_counterexample :
    (execute demoCfg "nonexistent" (.obj []) demoSt).2.mem.workLogs = [] ∧
    (execute demoCfg "nonexistent" (.obj []) demoSt).1.success = false ∧
    (execute demoCfg "nonexistent" (.obj []) demoSt).1.error
      = some "Unknown tool: nonexistent" := by
  refine ⟨?_, ?_, ?_⟩ <;> rfl

/-- C3 amended: when the tool name dispatches to a known handler, a TOOL
WorkLog entry recording the invocation and its SUCCESS/FAIL result is
always written (also when the handler raises: the exception is caught,
logged FAIL, and converted to a failure ToolResult carrying the message);
an unknown tool name returns the error result with the state — filesystem
and log — completely untouched. -/
theorem c3_amended_logging (cfg : ExecCfg) (name : String) (args : Jval)
    (st : ExecSt) :
    (∀ h, dispatchTool cfg name = some h →
      ((∃ entry rest,
          (execute cfg name args st).2.mem.workLogs = entry :: rest ∧
          entry.action = "TOOL" ∧ entry.target = name ∧
          entry.result =
            (if (execute cfg name args st).1.success then "SUCCESS" else "FAIL")) ∧
       (∀ e st', h args st = (.error e, st') →
          (execute cfg name args st).1
            = { success := false, output := "", error := some e } ∧
          (execute cfg name args st).2.mem.workLogs =
            ⟨st'.mem.clock, "TOOL", name, jDump args, "FAIL",
             jDump (.obj [("error", .str e)])⟩ :: st'.mem.workLogs))) ∧
    (dispatchTool cfg name = none →
      execute cfg name args st =
        ({ success := false, output := "",
           error := some ("Unknown tool: " ++ name) }, st)) := by
  constructor
  · intro h hdisp
    constructor
    · rcases hres : h args st with ⟨r | e, st'⟩
      · simp only [execute, hdisp, hres, MemoryStore.logWork]
        exact ⟨_, _, rfl, rfl, rfl, rfl⟩
      · simp only [execute, hdisp, hres, MemoryStore.logWork]
        exact ⟨_, _, rfl, rfl, rfl, rfl⟩
    · intro e st' hres
      constructor <;> simp [execute, hdisp, hres, MemoryStore.logWork]
  · intro hdisp
    simp [execute, hdisp]

/-- C3 witness: the generic logging theorem instantiated at a git_push
handler that raises "boom" over the empty state: the exception is caught,
converted and logged as the only FAIL entry. -/
theorem c3_witness :
    (execute failCfg "git_push" (.obj []) demoSt).1
      = { success := false, output := "", error := some "boom" } ∧
    (execute failCfg "git_push" (.obj []) demoSt).2.mem.workLogs =
      [⟨0, "TOOL", "git_push", jDump (.obj []), "FAIL",
        jDump (.obj [("error", .str "boom")])⟩] := by
  have h := (c3_amended_logging failCfg "git_push" (.obj []) demoSt).1
    (fun args st => (failCfg.env.gitPush args, st)) rfl
  have h2 := h.2 "boom" demoSt rfl
  exact ⟨h2.1, by rw [h2.2]; rfl⟩

/-- The empty path never names an SSOT file. -/
lemma isSsotFile_empty : isSsotFile "" = false := by decide

/-- An SSOT path is non-empty. -/
lemma ssot_path_ne_empty {p : String} (h : isSsotFile p = true) :
    (p == "") = false := by
  by_contra hne
  have hb : (p == "") = true := by
    cases hb2 : (p == "") with
    | true => rfl
    | false => exact absurd hb2 hne
  have : p = "" := by simpa using hb
  rw [this] at h
  exact absurd h (by decide)

/-- C1 amended (apply_patch half): a write through apply_patch targeting
a designated governance file with a truthy (non-empty string) new content,
when no approval callback is registered and the target is not a bare
directory, leaves the filesystem untouched, queues exactly one
PendingSSOTChange for that write, and produces the per-file
approval-required failure — and through execute the overall apply_patch
result is failure with the filesystem unchanged.  (The claim's update_ssot
half and the empty-content case are refuted by the counterexample.) -/
theorem c1_amended_ssot_gate (root : List String) (env : ToolEnv)
    (hash : String → String) (st : ExecSt) (p c : String)
    (hssot : isSsotFile p = true) (hc : (c == "") = false)
    (hval : (validateProjectScope root p).1 = true)
    (hguard : (dirExists st.fs (resolveComps (joinTo root p)) &&
      !(fileExists st.fs (resolveComps (joinTo root p)))) = false) :
    applyPatchFile root none hash st (.obj [("path", .str p), ("content", .str c)]) =
      .ok (some { path := p, success := false,
                  error := some ("SSOT file " ++ pathName p ++ " requires user approval") },
           { st with pending := st.pending ++
               [⟨p, renderAbs (joinTo root p), pathName p,
                 (fsGet st.fs (resolveComps (joinTo root p))).getD "", .str c⟩] }) ∧
    ((execute ⟨root, none, hash, env⟩ "apply_patch"
        (.obj [("files", .arr [.obj [("path", .str p), ("content", .str c)]])]) st).1.success
      = false ∧
     (execute ⟨root, none, hash, env⟩ "apply_patch"
        (.obj [("files", .arr [.obj [("path", .str p), ("content", .str c)]])]) st).2.fs
      = st.fs ∧
     (execute ⟨root, none, hash, env⟩ "apply_patch"
        (.obj [("files", .arr [.obj [("path", .str p), ("content", .str c)]])]) st).2.pending
      = st.pending ++
        [⟨p, renderAbs (joinTo root p), pathName p,
          (fsGet st.fs (resolveComps (joinTo root p))).getD "", .str c⟩]) := by
  have hp := ssot_path_ne_empty hssot
  have hfile : applyPatchFile root none hash st
      (.obj [("path", .str p), ("content", .str c)]) =
      .ok (some { path := p, success := false,
                  error := some ("SSOT file " ++ pathName p ++ " requires user approval") },
           { st with pending := st.pending ++
               [⟨p, renderAbs (joinTo root p), pathName p,
                 (fsGet st.fs (resolveComps (joinTo root p))).getD "", .str c⟩] }) := by
    simp [applyPatchFile, jGet, hp, hval, hssot, hc, hguard, jTruthy, bind, Except.bind,
      pure, Except.pure]
  refine ⟨hfile, ?_, ?_, ?_⟩ <;>
    simp [execute, dispatchTool, applyPatchTool, applyPatchLoop, hfile, jGetD, jGet,
      jTruthy, MemoryStore.logWork]

/-- C1 witness: the gate theorem at HANDOVER.md with content "new" over
the empty project. -/
theorem c1_witness :
    (execute ⟨["r"], none, id, trivEnv⟩ "apply_patch"
      (.obj [("files", .arr [.obj [("path", .str "HANDOVER.md"),
        ("content", .str "new")]])]) demoSt).1.success = false ∧
    (execute ⟨["r"], none, id, trivEnv⟩ "apply_patch"
      (.obj [("files", .arr [.obj [("path", .str "HANDOVER.md"),
        ("content", .str "new")]])]) demoSt).2.fs = [] ∧
    (execute ⟨["r"], none, id, trivEnv⟩ "apply_patch"
      (.obj [("files", .arr [.obj [("path", .str "HANDOVER.md"),
        ("content", .str "new")]])]) demoSt).2.pending
      = [⟨"HANDOVER.md", "/r/HANDOVER.md", "HANDOVER.md", "", .str "new"⟩] := by
  have h := (c1_amended_ssot_gate ["r"] trivEnv id demoSt "HANDOVER.md" "new"
    (by decide) (by decide) (by decide) (by decide)).2
  exact ⟨h.1, h.2.1, h.2.2⟩

/-- C10: when the exact path does not exist but its parent directory
holds a case-insensitively matching entry, read_file silently substitutes
that entry and returns its content with success — and the existence probe
with its case-insensitive scan runs before the sandbox validation (which
is applied to the requested path): a path that probes to nothing is
reported "File not found" even when its validation fails. -/
theorem c10_case_probe_before_validation (root : List String)
    (cb : Option SsotCb) (env : ToolEnv) (hash : String → String)
    (st : ExecSt) (p n c : String)
    (hp : (p == "") = false)
    (hmiss : pathExists st.fs (resolveComps (joinTo root p)) = false)
    (hdir : dirExists st.fs (resolveComps (joinTo root p).dropLast) = true)
    (hfind : (childNames st.fs (resolveComps (joinTo root p).dropLast)).find?
      (fun f => strToLower f == strToLower (((joinTo root p).getLast?).getD ""))
      = some n)
    (hfile : fsGet st.fs (resolveComps (joinTo root p).dropLast ++ [n]) = some c)
    (hval : (validateProjectScope root p).1 = true) :
    (execute ⟨root, cb, hash, env⟩ "read_file" (.obj [("path", .str p)]) st).1
      = { success := true, output := c,
          data := some (.obj [("path", .str p), ("size", .num c.length)]) } ∧
    (∀ q, (q == "") = false →
      readFileProbe st.fs (joinTo root q) = .ok none →
      (execute ⟨root, cb, hash, env⟩ "read_file" (.obj [("path", .str q)]) st).1.error
        = some ("File not found: " ++ q)) := by
  constructor
  · have hprobe : readFileProbe st.fs (joinTo root p)
        = .ok (some (resolveComps (joinTo root p).dropLast ++ [n])) := by
      simp [readFileProbe, hmiss, hdir, hfind]
    have hrf : readFileTool st.fs root (.obj [("path", .str p)])
        = .ok { success := true, output := c,
                data := some (.obj [("path", .str p), ("size", .num c.length)]) } := by
      simp [readFileTool, jGet, hp, hprobe, hval, hfile, bind, Except.bind,
        pure, Except.pure]
    simp [execute, dispatchTool, hrf, MemoryStore.logWork]
  · intro q hq hprobe
    have hrf : readFileTool st.fs root (.obj [("path", .str q)])
        = .ok { success := false, output := "",
                error := some ("File not found: " ++ q) } := by
      simp [readFileTool, jGet, hq, hprobe, bind, Except.bind, pure, Except.pure]
    simp [execute, dispatchTool, hrf, MemoryStore.logWork]

/-- C10 witness: requesting TEST.PY finds test.py, and the out-of-root
path "../miss" (whose validation fails) still reports File not found,
because the probe ran first. -/
theorem c10_witness :
    (execute ⟨["r"], none, id, trivEnv⟩ "read_file" (.obj [("path", .str "TEST.PY")])
      ⟨[(["r", "test.py"], "hi")], .init none, []⟩).1
      = { success := true, output := "hi",
          data := some (.obj [("path", .str "TEST.PY"), ("size", .num 2)]) } ∧
    (execute ⟨["r"], none, id, trivEnv⟩ "read_file" (.obj [("path", .str "../miss")])
      ⟨[(["r", "test.py"], "hi")], .init none, []⟩).1.error
      = some "File not found: ../miss" := by
  have h := c10_case_probe_before_validation ["r"] none trivEnv id
    ⟨[(["r", "test.py"], "hi")], .init none, []⟩ "TEST.PY" "test.py" "hi"
    (by decide) (by decide) (by decide) (by decide) (by decide) (by decide)
  exact ⟨h.1, h.2 "../miss" (by decide) rfl⟩

/-- Taking from a reversed list is the reversed suffix. -/
lemma reverse_take_eq_drop_reverse {α : Type} (l : List α) (k : Nat) :
    l.reverse.take k = (l.drop (l.length - k)).reverse := by
  calc l.reverse.take k = ((l.reverse.take k).reverse).reverse := by
        rw [List.reverse_reverse]
    _ = (List.drop (l.reverse.length - k) l.reverse.reverse).reverse := by
        rw [List.reverse_take]
    _ = (l.drop (l.length - k)).reverse := by
        rw [List.reverse_reverse, List.length_reverse]

/-- get_recent_turns returns the suffix of the stored turn list (in
stored, oldest-to-newest order). -/
lemma getRecentTurns_eq (m : MemoryStore) (limit : Nat) :
    m.getRecentTurns limit = m.turns.drop (m.turns.length - limit) := by
  unfold MemoryStore.getRecentTurns
  rw [reverse_take_eq_drop_reverse, List.reverse_reverse]

/-- The last n entries of a list. -/
def lastN {α : Type} (n : Nat) (l : List α) : List α := l.drop (l.length - n)

/-- A prefix does not affect the last n entries when the remainder is
long enough. -/
lemma lastN_append_of_le {α : Type} (n : Nat) (pre l : List α)
    (h : n ≤ l.length) : lastN n (pre ++ l) = lastN n l := by
  unfold lastN
  have harith : pre.length + l.length - n = pre.length + (l.length - n) := by omega
  rw [List.length_append, harith, List.drop_append]

/-- Truncating to the last n entries before appending does not change the
last n entries of the whole. -/
lemma lastN_append_left {α : Type} (n : Nat) (xs ys : List α) :
    lastN n (lastN n xs ++ ys) = lastN n (xs ++ ys) := by
  by_cases hx : xs.length ≤ n
  · have : lastN n xs = xs := by
      unfold lastN
      have : xs.length - n = 0 := by omega
      rw [this, List.drop_zero]
    rw [this]
  · have hsplit : xs ++ ys = xs.take (xs.length - n) ++ (lastN n xs ++ ys) := by
      unfold lastN
      rw [← List.append_assoc, List.take_append_drop]
    have hlen2 : n ≤ (lastN n xs ++ ys).length := by
      have hl : (lastN n xs).length = n := by
        unfold lastN
        rw [List.length_drop]
        omega
      rw [List.length_append, hl]
      omega
    rw [hsplit,
      lastN_append_of_le n (xs.take (xs.length - n)) (lastN n xs ++ ys) hlen2]

/-- Well-formedness of the conversation table: ids below the clock,
strictly increasing along the list, and the retention invariant. -/
def TurnsWF (st : MemoryStore) : Prop :=
  (∀ r ∈ st.turns, r.id < st.clock) ∧
  List.Pairwise (fun a b => a.id < b.id) st.turns ∧
  st.turns.length ≤ st.maxTurns

/-- Filtering an id-increasing list by membership of the ids of its own
suffix keeps exactly that suffix. -/
lemma filter_keep_suffix (pre suf : List TurnRow)
    (h : List.Pairwise (fun a b => a.id < b.id) (pre ++ suf)) :
    (pre ++ suf).filter
      (fun r => ((suf.reverse).map (fun x => x.id)).contains r.id) = suf := by
  rw [List.filter_append]
  rw [List.pairwise_append] at h
  have h1 : pre.filter
      (fun r => ((suf.reverse).map (fun x => x.id)).contains r.id) = [] := by
    rw [List.filter_eq_nil_iff]
    intro a ha hcon
    have : a.id ∈ (suf.reverse).map (fun x => x.id) := by
      simpa using hcon
    rcases List.mem_map.mp this with ⟨b, hb, hid⟩
    have hblt := h.2.2 a ha b (List.mem_reverse.mp hb)
    omega
  have h2 : suf.filter
      (fun r => ((suf.reverse).map (fun x => x.id)).contains r.id) = suf := by
    rw [List.filter_eq_self]
    intro a ha
    simp only [List.contains_iff_exists_mem_beq, List.mem_map, List.mem_reverse,
      beq_iff_eq]
    exact ⟨a.id, ⟨a, ha, rfl⟩, rfl⟩
  rw [h1, h2, List.nil_append]

/-- add_turn appends the new row and keeps exactly the last max_turns
rows (its DELETE removes everything else), for a well-formed store. -/
lemma addTurn_eq (st : MemoryStore) (hwf : TurnsWF st) (role content : String) :
    st.addTurn role content =
      { st with
        turns := lastN st.maxTurns (st.turns ++ [(⟨st.clock, role, content⟩ : TurnRow)]),
        clock := st.clock + 1 } := by
  have hrows : List.Pairwise (fun a b : TurnRow => a.id < b.id)
      (st.turns ++ [(⟨st.clock, role, content⟩ : TurnRow)]) := by
    rw [List.pairwise_append]
    refine ⟨hwf.2.1, List.pairwise_singleton _ _, fun a ha b hb => ?_⟩
    have hb2 : b = (⟨st.clock, role, content⟩ : TurnRow) := by simpa using hb
    subst hb2
    simpa using hwf.1 a ha
  have key : (st.turns ++ [(⟨st.clock, role, content⟩ : TurnRow)]).filter
      (fun r => (((st.turns ++ [(⟨st.clock, role, content⟩ : TurnRow)]).reverse.take
        st.maxTurns).map (fun r => r.id)).contains r.id)
      = lastN st.maxTurns (st.turns ++ [(⟨st.clock, role, content⟩ : TurnRow)]) := by
    rw [reverse_take_eq_drop_reverse]
    have h2 := filter_keep_suffix
      ((st.turns ++ [(⟨st.clock, role, content⟩ : TurnRow)]).take
        ((st.turns ++ [(⟨st.clock, role, content⟩ : TurnRow)]).length - st.maxTurns))
      ((st.turns ++ [(⟨st.clock, role, content⟩ : TurnRow)]).drop
        ((st.turns ++ [(⟨st.clock, role, content⟩ : TurnRow)]).length - st.maxTurns))
      (by rw [List.take_append_drop]; exact hrows)
    rw [List.take_append_drop] at h2
    exact h2
  calc st.addTurn role content
      = { st with
          turns := (st.turns ++ [(⟨st.clock, role, content⟩ : TurnRow)]).filter
            (fun r => (((st.turns ++ [(⟨st.clock, role, content⟩ : TurnRow)]).reverse.take
              st.maxTurns).map (fun r => r.id)).contains r.id),
          clock := st.clock + 1 } := rfl
    _ = { st with
          turns := lastN st.maxTurns (st.turns ++ [(⟨st.clock, role, content⟩ : TurnRow)]),
          clock := st.clock + 1 } := by rw [key]

/-- Folding add_turn over a list of (role, content) pairs. -/
def foldTurns (ts : List (String × String)) (st : MemoryStore) : MemoryStore :=
  ts.foldl (fun s t => s.addTurn t.1 t.2) st

/-- Characterization of the fold: well-formedness is preserved and the
stored turns are exactly the last max_turns of everything appended. -/
lemma foldTurns_turns (ts : List (String × String)) :
    ∀ st : MemoryStore, TurnsWF st →
    TurnsWF (foldTurns ts st) ∧
    (foldTurns ts st).maxTurns = st.maxTurns ∧
    (foldTurns ts st).turns.map (fun r => (r.role, r.content))
      = lastN st.maxTurns ((st.turns.map (fun r => (r.role, r.content))) ++ ts) := by
  induction ts with
  | nil =>
    intro st hwf
    refine ⟨hwf, rfl, ?_⟩
    unfold foldTurns lastN
    have h0 : st.turns.length - st.maxTurns = 0 := by
      have := hwf.2.2
      omega
    simp [h0]
  | cons t ts ih =>
    intro st hwf
    have hstep := addTurn_eq st hwf t.1 t.2
    have hrows : List.Pairwise (fun a b : TurnRow => a.id < b.id)
        (st.turns ++ [(⟨st.clock, t.1, t.2⟩ : TurnRow)]) := by
      rw [List.pairwise_append]
      refine ⟨hwf.2.1, List.pairwise_singleton _ _, fun a ha b hb => ?_⟩
      have hb2 : b = (⟨st.clock, t.1, t.2⟩ : TurnRow) := by simpa using hb
      subst hb2
      simpa using hwf.1 a ha
    have hwf' : TurnsWF (st.addTurn t.1 t.2) := by
      rw [hstep]
      refine ⟨?_, ?_, ?_⟩
      · intro r hr
        show r.id < st.clock + 1
        have hr2 := List.mem_of_mem_drop hr
        rcases List.mem_append.mp hr2 with h | h
        · have := hwf.1 r h
          omega
        · have hh : r = (⟨st.clock, t.1, t.2⟩ : TurnRow) := by simpa using h
          rw [hh]
          exact Nat.lt_succ_self _
      · show List.Pairwise _ (lastN st.maxTurns (st.turns ++ [(⟨st.clock, t.1, t.2⟩ : TurnRow)]))
        unfold lastN
        exact hrows.sublist (List.drop_sublist _ _)
      · show (lastN st.maxTurns (st.turns ++ [(⟨st.clock, t.1, t.2⟩ : TurnRow)])).length
          ≤ st.maxTurns
        unfold lastN
        rw [List.length_drop]
        omega
    have hfold : foldTurns (t :: ts) st = foldTurns ts (st.addTurn t.1 t.2) := rfl
    rcases ih (st.addTurn t.1 t.2) hwf' with ⟨hwfr, hmr, hcr⟩
    have hmaxstep : (st.addTurn t.1 t.2).maxTurns = st.maxTurns := by
      rw [hstep]
    have hturnstep : (st.addTurn t.1 t.2).turns
        = lastN st.maxTurns (st.turns ++ [(⟨st.clock, t.1, t.2⟩ : TurnRow)]) := by
      rw [hstep]
    refine ⟨by rwa [hfold], ?_, ?_⟩
    · rw [hfold, hmr, hmaxstep]
    · rw [hfold, hcr, hmaxstep, hturnstep]
      have hmap : (lastN st.maxTurns (st.turns ++ [(⟨st.clock, t.1, t.2⟩ : TurnRow)])).map
          (fun r => (r.role, r.content))
          = lastN st.maxTurns
            ((st.turns.map (fun r => (r.role, r.content))) ++ [(t.1, t.2)]) := by
        unfold lastN
        rw [List.map_drop]
        congr 2
        · simp
        · simp
      rw [hmap, lastN_append_left]
      simp

/-- C6: configuring the bound max_turns and appending max_turns + k turns
(k > 0) to an empty store leaves exactly the max_turns most recently
appended turns, in order; the turn count never exceeds the bound after
any sequence of appends; and get_recent_turns always returns a suffix of
the stored turns, i.e. ordered oldest-to-newest. -/
theorem c6_turn_retention (m k : Nat) (ts : List (String × String))
    (hk : 0 < k) (hlen : ts.length = m + k) :
    (foldTurns ts ((MemoryStore.init none).setMaxTurns m)).turns.map
      (fun r => (r.role, r.content)) = ts.drop k ∧
    (foldTurns ts ((MemoryStore.init none).setMaxTurns m)).turns.length = m ∧
    (∀ ts' : List (String × String),
      (foldTurns ts' ((MemoryStore.init none).setMaxTurns m)).turns.length ≤ m) ∧
    (∀ limit st', st' = foldTurns ts ((MemoryStore.init none).setMaxTurns m) →
      st'.getRecentTurns limit = st'.turns.drop (st'.turns.length - limit)) := by
  have hwf0 : TurnsWF ((MemoryStore.init none).setMaxTurns m) := by
    refine ⟨?_, ?_, ?_⟩ <;> simp [MemoryStore.init, MemoryStore.setMaxTurns]
  have hchar := foldTurns_turns ts _ hwf0
  have hmax : ((MemoryStore.init none).setMaxTurns m).maxTurns = m := rfl
  have hempty : ((MemoryStore.init none).setMaxTurns m).turns = [] := rfl
  rcases hchar with ⟨hwfr, hmr, hcr⟩
  rw [hmax, hempty] at hcr
  simp only [List.map_nil, List.nil_append] at hcr
  have hdrop : lastN m ts = ts.drop k := by
    unfold lastN
    congr 1
    omega
  constructor
  · rw [hcr, hdrop]
  constructor
  · have := congrArg List.length hcr
    rw [List.length_map, hdrop, List.length_drop] at this
    omega
  constructor
  · intro ts'
    have hchar' := foldTurns_turns ts' _ hwf0
    exact hchar'.1.2.2.trans_eq (hchar'.2.1.trans hmax)
  · intro limit st' hst
    exact getRecentTurns_eq st' limit

/-- C6 witness: bound 2 with three appended turns keeps the last two, in
order, and get_recent_turns 2 returns them oldest first. -/
theorem c6_witness :
    0 < 1 ∧
    (foldTurns [("user", "a"), ("assistant", "b"), ("user", "c")]
      ((MemoryStore.init none).setMaxTurns 2)).turns.map
        (fun r => (r.role, r.content)) = [("assistant", "b"), ("user", "c")] := by
  refine ⟨Nat.one_pos, ?_⟩
  have h := (c6_turn_retention 2 1
    [("user", "a"), ("assistant", "b"), ("user", "c")] Nat.one_pos rfl).1
  simpa using h

/-- The iteration loop performs at most its fuel's worth of
generate_with_tools calls, for every transport. -/
lemma agentLoop_gens_le (ctx : AgentCtx) (userInput : String)
    (pack : ContextPack) :
    ∀ n acc st, (agentLoop ctx userInput pack n acc st).gens ≤ n := by
  intro n
  induction n with
  | zero => intro acc st; exact Nat.le_refl 0
  | succ n ih =>
    intro acc st
    rcases htr : ctx.transport (MAX_ITERATIONS - (n + 1))
        (buildPrompt userInput pack acc) with e | content
    · simp only [agentLoop, htr]
      omega
    · rcases hpc : parseToolCalls content with _ | calls
      · simp only [agentLoop, htr, hpc]
        omega
      · simp only [agentLoop, htr, hpc]
        exact Nat.succ_le_succ (ih _ _)

/-- With a transport whose every response parses to at least one tool
call, the loop never breaks early, never aborts, and performs exactly one
generate_with_tools call per fuel step. -/
lemma agentLoop_all_tools (ctx : AgentCtx) (userInput : String)
    (pack : ContextPack)
    (htool : ∀ i p, ∃ c, ctx.transport i p = .ok c ∧ parseToolCalls c ≠ none) :
    ∀ n acc st,
      (agentLoop ctx userInput pack n acc st).finalFromLoop = none ∧
      (agentLoop ctx userInput pack n acc st).err = none ∧
      (agentLoop ctx userInput pack n acc st).gens = n := by
  intro n
  induction n with
  | zero => intro acc st; exact ⟨rfl, rfl, rfl⟩
  | succ n ih =>
    intro acc st
    obtain ⟨c, hc, hpc⟩ :=
      htool (MAX_ITERATIONS - (n + 1)) (buildPrompt userInput pack acc)
    rcases hx : parseToolCalls c with _ | calls
    · exact absurd hx hpc
    · simp only [agentLoop, hc, hx]
      have h := ih
        (autoTest ctx.cfg (runToolCalls ctx.cfg calls acc st).1
          (runToolCalls ctx.cfg calls acc st).2).1
        (autoTest ctx.cfg (runToolCalls ctx.cfg calls acc st).1
          (runToolCalls ctx.cfg calls acc st).2).2
      exact ⟨h.1, h.2.1, by rw [h.2.2]⟩

/-- Whichever way the loop ends, process makes exactly the loop's
generate_with_tools calls. -/
lemma agentProcess_gens (ctx : AgentCtx) (input : String) (st : ExecSt) :
    (agentProcess ctx input st).gens =
      (agentLoop ctx input
        (contextBuild st.fs ctx.cfg.root ctx.ctxCfg (st.mem.addTurn "user" input)
          ctx.git input (extractSearchQuery input))
        MAX_ITERATIONS [] ⟨st.fs, st.mem.addTurn "user" input, st.pending⟩).gens := by
  simp only [agentProcess]
  split
  · rfl
  · split
    · rfl
    · rfl

/-- C7: for any modelled transport whose every response carries at least
one parsed tool call, Agent.process performs exactly MAX_ITERATIONS
rounds of generate-then-tool-dispatch (and never more than
MAX_ITERATIONS, for any transport whatsoever), then issues exactly one
additional tool-free summarizing generate call and terminates with its
text — or with the templated fallback message when that call fails. -/
theorem c7_loop_bound (ctx : AgentCtx) (input : String) (st : ExecSt)
    (htool : ∀ i p, ∃ c, ctx.transport i p = .ok c ∧ parseToolCalls c ≠ none) :
    (agentProcess ctx input st).gens = MAX_ITERATIONS ∧
    (agentProcess ctx input st).summaryCalls = 1 ∧
    (agentProcess ctx input st).resp.message =
      (match ctx.summary
        (buildSummaryPrompt input (agentProcess ctx input st).resp.toolResults) with
       | .ok s => s
       | .error e => "Task complete. (Summary generation failed: " ++ e ++ ")") ∧
    (∀ ctx' : AgentCtx, (agentProcess ctx' input st).gens ≤ MAX_ITERATIONS) := by
  have hl := agentLoop_all_tools ctx input
    (contextBuild st.fs ctx.cfg.root ctx.ctxCfg (st.mem.addTurn "user" input)
      ctx.git input (extractSearchQuery input))
    htool MAX_ITERATIONS [] ⟨st.fs, st.mem.addTurn "user" input, st.pending⟩
  have hbound : ∀ ctx' : AgentCtx,
      (agentProcess ctx' input st).gens ≤ MAX_ITERATIONS := by
    intro ctx'
    rw [agentProcess_gens]
    exact agentLoop_gens_le ctx' input _ MAX_ITERATIONS _ _
  refine ⟨?_, ?_, ?_, hbound⟩
  · rw [agentProcess_gens]
    exact hl.2.2
  · simp only [agentProcess, hl.1, hl.2.1]
  · simp only [agentProcess, hl.1, hl.2.1]

/-- The fixed tool-calling response content used by the C7 witness. -/
def alwaysToolContent : String :=
  "```json\n\x7b\"tool\": \"get_diff\", \"args\": \x7b\x7d\x7d\n```"

/-- A transport that always calls a tool, with a succeeding summary. -/
def demoAgent : AgentCtx :=
  ⟨demoCfg, {}, .failure, fun _ _ => .ok alwaysToolContent, fun _ => .ok "done"⟩

/-- C7 witness: the loop-bound theorem at the always-tool-calling
transport over the empty state. -/
theorem c7_witness :
    (agentProcess demoAgent "hello world" demoSt).gens = 5 ∧
    (agentProcess demoAgent "hello world" demoSt).summaryCalls = 1 ∧
    (agentProcess demoAgent "hello world" demoSt).resp.message = "done" := by
  have hpc : parseToolCalls alwaysToolContent
      = some [Jval.obj [("tool", .str "get_diff"), ("args", .obj [])]] := rfl
  have h := c7_loop_bound demoAgent "hello world" demoSt
    (fun i p => ⟨alwaysToolContent, rfl, by simp [hpc]⟩)
  refine ⟨h.1, h.2.1, ?_⟩
  rw [h.2.2.1]
  rfl

/-- The backtick character (written by code to keep it out of names). -/
def btChar : Char := Char.ofNat 96

/-- The cons equation of the scan. -/
lemma splitSub_cons (needle : List Char) (c : Char) (rest : List Char) :
    splitSub needle (c :: rest) =
      if needle.isPrefixOf (c :: rest) then
        some ([], (c :: rest).drop needle.length)
      else
        match splitSub needle rest with
        | some (a, b) => some (c :: a, b)
        | none => none := rfl

/-- A list is a prefix of itself extended. -/
lemma isPrefixOf_append_self (n x : List Char) : n.isPrefixOf (n ++ x) = true := by
  induction n with
  | nil => cases x <;> rfl
  | cons c t ih => simp [List.isPrefixOf, ih]

/-- A backtick-headed needle is no prefix of a list headed otherwise. -/
lemma not_prefix_of_head_ne (n0 : Char) (nt : List Char) (c : Char)
    (t : List Char) (hn0 : n0 = btChar) (hc : c ≠ btChar) :
    (n0 :: nt).isPrefixOf (c :: t) = false := by
  simp [List.isPrefixOf, hn0]
  intro heq
  exact absurd heq.symm hc

/-- Scanning for a backtick-headed needle skips a backtick-free prefix. -/
lemma splitSub_append_no_needle (needle pre rest : List Char)
    (hhead : needle.head? = some btChar)
    (hpre : ∀ c ∈ pre, c ≠ btChar) :
    splitSub needle (pre ++ rest)
      = (splitSub needle rest).map (fun ab => (pre ++ ab.1, ab.2)) := by
  induction pre with
  | nil =>
    simp only [List.nil_append]
    rcases splitSub needle rest with _ | ⟨a, b⟩ <;> rfl
  | cons c pre ih =>
    have hc : c ≠ btChar := hpre c (List.mem_cons_self c pre)
    rcases needle with _ | ⟨n0, nt⟩
    · exact absurd hhead (by simp)
    · have hn0 : n0 = btChar := by simpa using hhead
      show splitSub (n0 :: nt) (c :: (pre ++ rest)) = _
      rw [splitSub_cons, not_prefix_of_head_ne n0 nt c _ hn0 hc]
      simp only [Bool.false_eq_true, if_false]
      rw [ih (fun x hx => hpre x (List.mem_cons_of_mem c hx))]
      rcases splitSub (n0 :: nt) rest with _ | ⟨a, b⟩ <;> simp

/-- A backtick-headed needle does not occur in a backtick-free text. -/
lemma splitSub_none_no_needle (needle l : List Char)
    (hhead : needle.head? = some btChar)
    (hl : ∀ c ∈ l, c ≠ btChar) :
    splitSub needle l = none := by
  induction l with
  | nil =>
    rcases needle with _ | ⟨n0, nt⟩
    · exact absurd hhead (by simp)
    · rfl
  | cons c t ih =>
    have hc : c ≠ btChar := hl c (List.mem_cons_self c t)
    rcases needle with _ | ⟨n0, nt⟩
    · exact absurd hhead (by simp)
    · have hn0 : n0 = btChar := by simpa using hhead
      rw [splitSub_cons, not_prefix_of_head_ne n0 nt c _ hn0 hc]
      simp only [Bool.false_eq_true, if_false]
      rw [ih (fun x hx => hl x (List.mem_cons_of_mem c hx))]

/-- The scan finds the needle placed right at the head. -/
lemma splitSub_at_needle (needle rest : List Char) (hne : needle ≠ []) :
    splitSub needle (needle ++ rest) = some ([], rest) := by
  rcases needle with _ | ⟨n0, nt⟩
  · exact absurd rfl hne
  · show splitSub (n0 :: nt) (n0 :: (nt ++ rest)) = _
    rw [splitSub_cons]
    have hpref : (n0 :: nt).isPrefixOf (n0 :: (nt ++ rest)) = true :=
      isPrefixOf_append_self (n0 :: nt) rest
    rw [hpref]
    simp only [if_true]
    congr 1
    have hr : n0 :: (nt ++ rest) = (n0 :: nt) ++ rest := rfl
    rw [hr, List.drop_left]

/-- The scan across clean text, the needle, then anything: it returns the
clean prefix and the tail. -/
lemma splitSub_clean_mid (needle pre rest : List Char)
    (hhead : needle.head? = some btChar)
    (hpre : ∀ c ∈ pre, c ≠ btChar) (hne : needle ≠ []) :
    splitSub needle (pre ++ needle ++ rest) = some (pre, rest) := by
  rw [List.append_assoc, splitSub_append_no_needle needle pre (needle ++ rest)
    hhead hpre, splitSub_at_needle needle rest hne]
  simp

/-- Backtick-free text contains no fenced block at all. -/
lemma fencedBlocks_nil (post : List Char) (hpost : ∀ c ∈ post, c ≠ btChar) :
    ∀ fuel, fencedBlocks fuel post = [] := by
  intro fuel
  rcases fuel with _ | fuel
  · rfl
  · unfold fencedBlocks
    rw [splitSub_none_no_needle "```json".data post (by decide) hpost]

/-- A single fenced block surrounded by backtick-free text yields exactly
its stripped body. -/
lemma fencedBlocks_single (pre mid post : List Char) (fuel : Nat)
    (hpre : ∀ c ∈ pre, c ≠ btChar) (hmid : ∀ c ∈ mid, c ≠ btChar)
    (hpost : ∀ c ∈ post, c ≠ btChar) :
    fencedBlocks (fuel + 1)
      (pre ++ "```json".data ++ mid ++ "```".data ++ post) = [trimChars mid] := by
  unfold fencedBlocks
  have hshape : pre ++ "```json".data ++ mid ++ "```".data ++ post
      = pre ++ "```json".data ++ (mid ++ "```".data ++ post) := by
    simp [List.append_assoc]
  rw [hshape, splitSub_clean_mid "```json".data pre (mid ++ "```".data ++ post)
    (by decide) hpre (by decide)]
  simp only
  rw [splitSub_clean_mid "```".data mid post (by decide) hmid (by decide)]
  simp only
  rw [fencedBlocks_nil post hpost fuel]

/-- C4: any text whose only tool syntax is one fenced JSON block holding
the object with tool "t" and args containing a mapped to 1 — formalized
as a backtick-free prefix and suffix around the fenced block — parses to
exactly that one tool call. -/
theorem c4_single_fenced_block (pre post : String)
    (hpre : ∀ c ∈ pre.data, c ≠ btChar) (hpost : ∀ c ∈ post.data, c ≠ btChar) :
    parseToolCalls
      (pre ++ "```json\n\x7b\"tool\": \"t\", \"args\": \x7b\"a\": 1\x7d\x7d\n```" ++ post)
      = some [.obj [("tool", .str "t"), ("args", .obj [("a", .num 1)])]] := by
  have hdata : (pre ++ "```json\n\x7b\"tool\": \"t\", \"args\": \x7b\"a\": 1\x7d\x7d\n```"
      ++ post).data
      = pre.data ++ "```json".data
        ++ "\n\x7b\"tool\": \"t\", \"args\": \x7b\"a\": 1\x7d\x7d\n".data
        ++ "```".data ++ post.data := by
    rw [String.data_append, String.data_append]
    simp [List.append_assoc]
  have hfb : fencedBlocks
      ((pre ++ "```json\n\x7b\"tool\": \"t\", \"args\": \x7b\"a\": 1\x7d\x7d\n```"
        ++ post).data.length + 1)
      ((pre ++ "```json\n\x7b\"tool\": \"t\", \"args\": \x7b\"a\": 1\x7d\x7d\n```"
        ++ post).data)
      = [trimChars "\n\x7b\"tool\": \"t\", \"args\": \x7b\"a\": 1\x7d\x7d\n".data] := by
    rw [hdata]
    exact fencedBlocks_single _ _ _ _ hpre (by decide) hpost
  have hs1 : strat1 (pre ++ "```json\n\x7b\"tool\": \"t\", \"args\": \x7b\"a\": 1\x7d\x7d\n```"
      ++ post) = [.obj [("tool", .str "t"), ("args", .obj [("a", .num 1)])]] := by
    unfold strat1
    rw [hfb]
    rfl
  unfold parseToolCalls
  rw [hs1]
  rfl

/-- C4 witness: the fenced-block theorem at concrete backtick-free
surrounding text. -/
theorem c4_witness :
    parseToolCalls
      ("Sure, here it is:\n" ++
        "```json\n\x7b\"tool\": \"t\", \"args\": \x7b\"a\": 1\x7d\x7d\n```" ++ "\nDone.")
      = some [.obj [("tool", .str "t"), ("args", .obj [("a", .num 1)])]] :=
  c4_single_fenced_block "Sure, here it is:\n" "\nDone." (by decide) (by decide)

/-- The guard of the final branch: only a non-empty call list is ever
wrapped in some. -/
lemma ite_isEmpty_ne_nil (calls l : List Jval)
    (h : (if calls.isEmpty = true then none else some calls) = some l) :
    l ≠ [] := by
  cases hic : calls.isEmpty
  · rw [hic] at h
    simp only [Bool.false_eq_true, if_false, Option.some.injEq] at h
    subst h
    intro hnil
    rw [hnil] at hic
    exact absurd hic (by simp)
  · rw [hic] at h
    simp at h

/-- No parse result is the empty call list. -/
lemma parseToolCalls_ne_some_nil (s : String) (l : List Jval)
    (h : parseToolCalls s = some l) : l ≠ [] := by
  unfold parseToolCalls at h
  exact ite_isEmpty_ne_nil _ l h

/-- C5: the parser is a total function (it never raises): every input
yields either no result or a non-empty call list; each lower-priority
strategy is consulted only when all higher ones produced no calls; and in
particular a malformed fenced JSON block is silently skipped, so the text
holding it followed by a bracketed-tag read_file call parses to that
call, while a well-formed fenced block shadows the same tag call. -/
theorem c5_parser_strategies :
    (∀ s : String, parseToolCalls s = none ∨
      ∃ l, parseToolCalls s = some l ∧ l ≠ []) ∧
    (∀ s : String, strat1 s ≠ [] → parseToolCalls s = some (strat1 s)) ∧
    (∀ s : String, strat1 s = [] → strat2 s = [] → strat3 s ≠ [] →
      parseToolCalls s = some (strat3 s)) ∧
    parseToolCalls "```json\n\x7bbroken\n```\n<read_file><path>a.md</path></read_file>"
      = some [.obj [("tool", .str "read_file"),
                    ("args", .obj [("path", .str "a.md")])]] ∧
    parseToolCalls
      ("```json\n\x7b\"tool\": \"t\", \"args\": \x7b\x7d\x7d\n```\n" ++
        "<read_file><path>a.md</path></read_file>")
      = some [.obj [("tool", .str "t"), ("args", .obj [])]] := by
  refine ⟨?_, ?_, ?_, ?_, ?_⟩
  · intro s
    rcases h : parseToolCalls s with _ | l
    · exact .inl rfl
    · exact .inr ⟨l, rfl, parseToolCalls_ne_some_nil s l h⟩
  · intro s h1
    unfold parseToolCalls
    have h1e : (strat1 s).isEmpty = false := by
      rcases hh : strat1 s with _ | ⟨a, t⟩
      · exact absurd hh h1
      · rfl
    simp [h1e]
  · intro s h1 h2 h3
    have h3e : (strat3 s).isEmpty = false := by
      rcases hh : strat3 s with _ | ⟨a, t⟩
      · exact absurd hh h3
      · rfl
    unfold parseToolCalls
    simp [h1, h2, h3e]
  · rfl
  · rfl

/-- C5 witness: the priority conjunct applied at the malformed-fence
input, whose first two strategies concretely produce nothing. -/
theorem c5_witness :
    parseToolCalls "```json\n\x7bbad\n```\n<get_diff></get_diff>"
      = some [.obj [("tool", .str "get_diff"), ("args", .obj [])]] := by
  have h3 : strat3 "```json\n\x7bbad\n```\n<get_diff></get_diff>"
      = [.obj [("tool", .str "get_diff"), ("args", .obj [])]] := rfl
  have h := c5_parser_strategies.2.2.1
    "```json\n\x7bbad\n```\n<get_diff></get_diff>" rfl rfl (by simp [h3])
  rw [h, h3]

/-- C8: ContextBuilder.build is total over the modelled filesystem,
memory and git states; when both governance documents are absent the
project state is the explicit placeholder, and any failing git status
query (timeout, missing tool, not a repository exception) degrades the
recent-changes field to the fixed empty string instead of an error, while
a nonzero exit yields the "(Not a git repo)" placeholder. -/
theorem c8_context_degrades (fs : Fs) (root : List String) (cfg : CtxConfig)
    (mem : MemoryStore) (git : GitStatusOutcome) (task query : String) :
    (fsGet fs (root ++ ["HANDOVER.md"]) = none →
      fsGet fs (root ++ ["CONSTITUTION.md"]) = none →
      (contextBuild fs root cfg mem git task query).projectState
        = "(No SSOT documents found)") ∧
    (git = .failure →
      (contextBuild fs root cfg mem git task query).recentChanges = "") ∧
    (∀ rc out, git = .completed rc out → rc ≠ 0 →
      (contextBuild fs root cfg mem git task query).recentChanges
        = "(Not a git repo)") := by
  refine ⟨?_, ?_, ?_⟩
  · intro hh hc
    simp [contextBuild, readSsot, hh, hc]
  · intro hg
    simp [contextBuild, getRecentChanges, hg]
  · intro rc out hg hrc
    simp [contextBuild, getRecentChanges, hg, hrc]

/-- Any of the three sandbox violations makes _validate_project_scope
reject. -/
lemma validate_false_of_viol (root : List String) (p : String)
    (hviol : isWithin root (resolveComps (joinTo root p)) = false ∨
      strContains ".." p = true ∨ isAbsPath p = true) :
    (validateProjectScope root p).1 = false := by
  rcases hviol with h | h | h
  · simp [validateProjectScope, h]
  · cases hw : isWithin root (resolveComps (joinTo root p)) <;>
      simp [validateProjectScope, h, hw]
  · cases hw : isWithin root (resolveComps (joinTo root p)) <;>
      cases hd : strContains ".." p <;>
        simp [validateProjectScope, h, hw, hd]

/-- With a resolved project root, the empty path violates no sandbox
condition, so a violating path is non-empty. -/
lemma viol_ne_empty (root : List String) (p : String)
    (hroot : resolveComps root = root)
    (hviol : isWithin root (resolveComps (joinTo root p)) = false ∨
      strContains ".." p = true ∨ isAbsPath p = true) :
    (p == "") = false := by
  cases hb : (p == "") with
  | false => rfl
  | true =>
    have hep : p = "" := by simpa using hb
    subst hep
    have h1 : pathComps "" = [] := by decide
    have h2 : isAbsPath "" = false := by decide
    have h3 : joinTo root "" = root := by simp [joinTo, h1, h2]
    rcases hviol with h | h | h
    · rw [h3, hroot] at h
      have : isWithin root root = true := by
        simp [isWithin, List.isPrefixOf_iff_prefix]
      rw [this] at h
      exact absurd h (by simp)
    · exact absurd h (by decide)
    · exact absurd h (by decide)

/-- Every run of _read_file on a non-empty path failing validation either
raises (iterdir on a file parent) or returns a failure result with empty
output: the not-found result when the existence probe finds nothing, else
the validation error. -/
lemma readFileTool_viol (fs : Fs) (root : List String) (p : String)
    (hp : (p == "") = false) (hvf : (validateProjectScope root p).1 = false) :
    (∃ e, readFileTool fs root (.obj [("path", .str p)]) = .error e) ∨
    (∃ msg, readFileTool fs root (.obj [("path", .str p)])
      = .ok { success := false, output := "", error := some msg }) := by
  rcases hpr : readFileProbe fs (joinTo root p) with e | tgt
  · exact .inl ⟨e, by
      simp [readFileTool, jGet, hp, hpr, bind, Except.bind, pure, Except.pure]⟩
  · rcases tgt with _ | tgt
    · exact .inr ⟨"File not found: " ++ p,
        by simp [readFileTool, jGet, hp, hpr, bind, Except.bind, pure, Except.pure]⟩
    · exact .inr ⟨(validateProjectScope root p).2,
        by simp [readFileTool, jGet, hp, hpr, hvf, bind, Except.bind, pure, Except.pure]⟩

/-- C2: for every path that resolves outside the project root, or
contains a ".." segment, or is absolute, read_file through execute fails
with empty output and an unchanged filesystem; the apply_patch per-file
treatment of that path produces exactly the per-file validation-error
entry with the state completely untouched (so the check precedes any read
or write of the target), and the overall apply_patch execute result is
failure with filesystem and pending queue unchanged. -/
theorem c2_sandbox_rejects (root : List String) (cb : Option SsotCb)
    (env : ToolEnv) (hash : String → String) (st : ExecSt) (p c : String)
    (hroot : resolveComps root = root)
    (hviol : isWithin root (resolveComps (joinTo root p)) = false ∨
      strContains ".." p = true ∨ isAbsPath p = true) :
    ((execute ⟨root, cb, hash, env⟩ "read_file" (.obj [("path", .str p)]) st).1.success
       = false ∧
     (execute ⟨root, cb, hash, env⟩ "read_file" (.obj [("path", .str p)]) st).1.output
       = "" ∧
     (execute ⟨root, cb, hash, env⟩ "read_file" (.obj [("path", .str p)]) st).2.fs
       = st.fs) ∧
    (applyPatchFile root cb hash st (.obj [("path", .str p), ("content", .str c)]) =
      .ok (some { path := p, success := false,
                  error := some (validateProjectScope root p).2 }, st)) ∧
    ((execute ⟨root, cb, hash, env⟩ "apply_patch"
        (.obj [("files", .arr [.obj [("path", .str p), ("content", .str c)]])]) st).1.success
       = false ∧
     (execute ⟨root, cb, hash, env⟩ "apply_patch"
        (.obj [("files", .arr [.obj [("path", .str p), ("content", .str c)]])]) st).2.fs
       = st.fs ∧
     (execute ⟨root, cb, hash, env⟩ "apply_patch"
        (.obj [("files", .arr [.obj [("path", .str p), ("content", .str c)]])]) st).2.pending
       = st.pending) := by
  have hp := viol_ne_empty root p hroot hviol
  have hvf := validate_false_of_viol root p hviol
  have hfile : applyPatchFile root cb hash st
      (.obj [("path", .str p), ("content", .str c)]) =
      .ok (some { path := p, success := false,
                  error := some (validateProjectScope root p).2 }, st) := by
    simp [applyPatchFile, jGet, hp, hvf, bind, Except.bind, pure, Except.pure]
  refine ⟨?_, hfile, ?_, ?_, ?_⟩
  · rcases readFileTool_viol st.fs root p hp hvf with ⟨e, he⟩ | ⟨msg, hm⟩
    · refine ⟨?_, ?_, ?_⟩ <;>
        simp [execute, dispatchTool, he, MemoryStore.logWork]
    · refine ⟨?_, ?_, ?_⟩ <;>
        simp [execute, dispatchTool, hm, MemoryStore.logWork]
  all_goals
    simp [execute, dispatchTool, applyPatchTool, applyPatchLoop, hfile, jGetD, jGet,
      jTruthy, MemoryStore.logWork]

/-- C2 witness: the sandbox theorem at the traversal path "../x" (which
both contains ".." and resolves outside the root /r). -/
theorem c2_witness :
    (execute demoCfg "read_file" (.obj [("path", .str "../x")]) demoSt).1.success
      = false ∧
    (execute demoCfg "apply_patch"
      (.obj [("files", .arr [.obj [("path", .str "../x"),
        ("content", .str "y")]])]) demoSt).2.fs = [] ∧
    (execute demoCfg "apply_patch"
      (.obj [("files", .arr [.obj [("path", .str "../x"),
        ("content", .str "y")]])]) demoSt).1.success = false := by
  have h := c2_sandbox_rejects ["r"] none trivEnv id demoSt "../x" "y"
    (by decide) (.inr (.inl (by decide)))
  exact ⟨h.1.1, h.2.2.2.1, h.2.2.1⟩

/-- C8 witness: the degradation theorem at the empty filesystem and a
failed git query. -/
theorem c8_witness :
    (contextBuild [] ["r"] {} (.init none) .failure "t" "q").projectState
      = "(No SSOT documents found)" ∧
    (contextBuild [] ["r"] {} (.init none) .failure "t" "q").recentChanges = "" := by
  have h := c8_context_degrades [] ["r"] {} (.init none) .failure "t" "q"
  exact ⟨h.1 rfl rfl, h.2.1 rfl⟩

end Madoro
